import Mathlib

/-!
# Kanako: a Blogger feed client

A shallow embedding of `src/kanako.js` (class `Kanako`) and the properties of its
request construction, pagination cursor, response handling and response mapping.

Modelling conventions.

* JavaScript numbers held by the client (`startIndex`, `maxResults`) and by the response
  tree are integers (`Int`), the HTTP status is a natural number.  The sum of two numbers is
  the exact sum rounded as IEEE 754 doubles are (`numberAdd`), hence exact up to the
  magnitude `2^53`; non-integral and non-finite numbers are outside the model.  A number is
  rendered by its decimal digits, which is what the platform prints for a safe integer.
* JavaScript strings are `String`: sequences of Unicode scalar values.  A JavaScript string
  holding an unpaired surrogate (on which `encodeURIComponent` throws) has no counterpart,
  and a string is indexed by character.
* Nullable string fields (`?string`) are `Option String`, `none` standing for `null`.
* A thrown JavaScript exception is the `Except.error` of the result.
-/

set_option autoImplicit false

namespace Kanako

/-! ## Platform functions used by the class -/

/-- Decimal rendering of an integral number, as a template literal renders it. -/
def numberToString (n : Int) : String := toString n

/-- The spacing of the numbers of the platform around the magnitude `m`: the least power of
two, from `u` on, by which `m` divides to less than `2^53`. -/
def spacingFrom : Nat → Nat → Nat → Nat
  | 0, _, u => u
  | fuel + 1, m, u => if m / u < 9007199254740992 then u else spacingFrom fuel m (2 * u)

/-- The number of the platform (IEEE 754 binary64) nearest to an integer, ties going to the
even significand.  Integers of magnitude below `2^53` are numbers themselves.  Magnitudes
from `2^1024` on, which the platform turns into `Infinity`, are outside the model. -/
def roundToDouble (x : Int) : Int :=
  if x.natAbs < 9007199254740992 then x
  else
    let u := spacingFrom x.natAbs x.natAbs 1
    let q := x.natAbs / u
    let r := x.natAbs % u
    let q' :=
      if 2 * r < u then q
      else if u < 2 * r then q + 1
      else if q % 2 = 0 then q else q + 1
    x.sign * ((q' * u : Nat) : Int)

/-- The addition `a + b` of two numbers: the exact sum, rounded to a number. -/
def numberAdd (a b : Int) : Int := roundToDouble (a + b)

/-- The predicate `Number.isSafeInteger`: magnitude at most `2^53 - 1`. -/
def isSafeInteger (n : Int) : Bool := decide (n.natAbs < 9007199254740992)

/-- Truthiness of a number: every number but zero. -/
def numTruthy (n : Int) : Bool := n != 0

/-- Truthiness of a nullable string: neither `null` nor the empty string. -/
def strTruthy : Option String → Bool
  | none => false
  | some s => s != ""

/-- Conversion of a nullable string to a string, as a template literal or a
string-taking platform function performs it. -/
def strValue : Option String → String
  | none => "null"
  | some s => s

/-- The characters `encodeURIComponent` leaves as they are: ASCII letters, decimal digits
and the marks `- _ . ! ~ * ' ( )`. -/
def isUnreserved (c : Char) : Bool :=
  let n := c.toNat
  (65 ≤ n && n ≤ 90) || (97 ≤ n && n ≤ 122) || (48 ≤ n && n ≤ 57) ||
    n == 45 || n == 95 || n == 46 || n == 33 || n == 126 || n == 42 || n == 39 ||
    n == 40 || n == 41

/-- Upper-case hexadecimal digit of a value below sixteen. -/
def hexDigit (n : Nat) : Char :=
  if n < 10 then Char.ofNat (48 + n) else Char.ofNat (55 + n)

/-- The UTF-8 octets of a code point. -/
def utf8Octets (n : Nat) : List Nat :=
  if n < 128 then [n]
  else if n < 2048 then [192 + n / 64, 128 + n % 64]
  else if n < 65536 then [224 + n / 4096, 128 + n / 64 % 64, 128 + n % 64]
  else [240 + n / 262144, 128 + n / 4096 % 64, 128 + n / 64 % 64, 128 + n % 64]

/-- One octet as a `%XX` escape. -/
def percentEscape (b : Nat) : List Char :=
  ['%', hexDigit (b / 16), hexDigit (b % 16)]

/-- The escapes of a list of octets, in order. -/
def escapeOctets : List Nat → List Char
  | [] => []
  | b :: bs => percentEscape b ++ escapeOctets bs

/-- Encoding of one character by `encodeURIComponent`. -/
def encodeChar (c : Char) : List Char :=
  if isUnreserved c then [c] else escapeOctets (utf8Octets c.toNat)

/-- Encoding of a character sequence by `encodeURIComponent`. -/
def encodeChars : List Char → List Char
  | [] => []
  | c :: cs => encodeChar c ++ encodeChars cs

/-- The platform function `encodeURIComponent` (ECMAScript `Encode` with the
unreserved set of URI components). -/
def encodeURIComponent (s : String) : String := String.mk (encodeChars s.data)

/-! ## Client state -/

end Kanako

/-- The fields of a `Kanako` instance (`src/kanako.js`, constructor, lines 32-86). -/
structure Kanako where
  blogUrl : String
  startIndex : Int
  maxResults : Int
  searchQuery : Option String
  contentMode : String
  updatedMin : Option String
  updatedMax : Option String
  publishedMin : Option String
  publishedMax : Option String
  deriving DecidableEq, Repr

namespace Kanako

/-- The constructor: `maxResults || 25` takes the argument unless it is omitted or zero. -/
def constructor (blogUrl : String) (maxResults : Option Int) : Kanako :=
  { blogUrl := blogUrl
    startIndex := 1
    maxResults :=
      match maxResults with
      | none => 25
      | some n => if numTruthy n then n else 25
    searchQuery := none
    contentMode := "default"
    updatedMin := none
    updatedMax := none
    publishedMin := none
    publishedMax := none }

/-- The method `buildRequestUrl` (lines 187-197): the local `url` is extended statement by
statement. -/
def buildRequestUrl (self : Kanako) : String :=
  let url := self.blogUrl ++ "feeds/posts/" ++ self.contentMode ++ "?alt=json"
  let url := if numTruthy self.startIndex
    then url ++ ("&start-index=" ++ numberToString self.startIndex) else url
  let url := if numTruthy self.maxResults
    then url ++ ("&max-results=" ++ numberToString self.maxResults) else url
  let url := if strTruthy self.searchQuery
    then url ++ ("&q=" ++ encodeURIComponent (strValue self.searchQuery)) else url
  let url := if strTruthy self.updatedMin
    then url ++ ("&updated-min=" ++ strValue self.updatedMin) else url
  let url := if strTruthy self.updatedMax
    then url ++ ("&updated-max=" ++ strValue self.updatedMax) else url
  let url := if strTruthy self.publishedMin
    then url ++ ("&published-min=" ++ strValue self.publishedMin) else url
  let url := if strTruthy self.publishedMax
    then url ++ ("&published-max=" ++ strValue self.publishedMax) else url
  url

/-- The method `resetStartIndex` (lines 201-203). -/
def resetStartIndex (self : Kanako) : Kanako :=
  { self with startIndex := 1 }

/-- The method `updateStartIndex` (lines 207-209): `+=` adds the two numbers as the platform
does. -/
def updateStartIndex (self : Kanako) : Kanako :=
  { self with startIndex := numberAdd self.startIndex self.maxResults }

/-! ## The request URL as the specification words it -/

/-- A query-string segment `&name=value` for a parameter that is present, nothing for one
that is not. -/
def segment (name : String) : Option String → String
  | none => ""
  | some value => "&" ++ name ++ "=" ++ value

/-- A numeric field is present when it is non-zero; its value is its decimal rendering. -/
def presentNumber (n : Int) : Option String :=
  if n = 0 then none else some (numberToString n)

/-- A string field is present when it is neither null nor empty; its value is itself. -/
def presentString : Option String → Option String
  | none => none
  | some s => if s = "" then none else some s

/-- The optional parameters of a request in their fixed order, each with its value when
present; the search term is URL-encoded, every other value is verbatim. -/
def parameters (self : Kanako) : List (String × Option String) :=
  [ ("start-index", presentNumber self.startIndex),
    ("max-results", presentNumber self.maxResults),
    ("q", (presentString self.searchQuery).map encodeURIComponent),
    ("updated-min", presentString self.updatedMin),
    ("updated-max", presentString self.updatedMax),
    ("published-min", presentString self.publishedMin),
    ("published-max", presentString self.publishedMax) ]

/-- The fixed head of every request URL. -/
def urlHead (self : Kanako) : String :=
  self.blogUrl ++ "feeds/posts/" ++ self.contentMode ++ "?alt=json"

/-- The request URL of the interface description: the head followed by the segments of
the parameters in order. -/
def specRequestUrl (self : Kanako) : String :=
  urlHead self ++ String.join ((parameters self).map fun p => segment p.1 p.2)

/-! ## JavaScript values of the response tree -/

end Kanako

/-- The exceptions the class can raise: a `TypeError` of a property read or call, and the
`SyntaxError` of `JSON.parse`. -/
inductive JsError where
  | typeError
  | syntaxError
  deriving DecidableEq, Repr

/-- The values the mapping handles: what `JSON.parse` produces, `undefined` (the read of a
missing property), and the built-in functions a property read can reach. -/
inductive JsVal where
  | undefined
  | null
  | bool (b : Bool)
  | num (n : Int)
  | str (s : String)
  | arr (items : List JsVal)
  | obj (fields : List (String × JsVal))
  | fn (name : String)

namespace JsVal

/-- The abstract operation `ToBoolean`. -/
def toBoolean : JsVal → Bool
  | undefined => false
  | null => false
  | bool b => b
  | num n => n != 0
  | str s => s != ""
  | arr _ => true
  | obj _ => true
  | fn _ => true

/-- Number of UTF-16 code units of a character sequence (the `length` of a string). -/
def utf16Length : List Char → Nat
  | [] => 0
  | c :: cs => (if c.toNat < 65536 then 1 else 2) + utf16Length cs

/-- The read `v.key` of a named property.  Reading from `undefined` or `null` throws a
`TypeError`; an object yields its own property or `undefined`; arrays and strings have a
`length`; of the inherited members only those the class can reach are modelled: `map` of an
array and `link` of a string, both functions. -/
def getProp (v : JsVal) (key : String) : Except JsError JsVal :=
  match v with
  | undefined => .error .typeError
  | null => .error .typeError
  | bool _ => .ok undefined
  | num _ => .ok undefined
  | str s =>
    if key = "length" then .ok (num (utf16Length s.data))
    else if key = "link" then .ok (fn "link")
    else .ok undefined
  | arr items =>
    if key = "length" then .ok (num items.length)
    else if key = "map" then .ok (fn "map")
    else .ok undefined
  | obj fields => .ok ((fields.lookup key).getD undefined)
  | fn name =>
    if key = "name" then .ok (str name)
    else if key = "length" then .ok (num 1)
    else .ok undefined

/-- The read `v[i]` of an index.  Reading from `undefined` or `null` throws a `TypeError`;
an array yields its element or `undefined`, a string its character, an object its own
property of that decimal name. -/
def getIndex (v : JsVal) (i : Nat) : Except JsError JsVal :=
  match v with
  | undefined => .error .typeError
  | null => .error .typeError
  | bool _ => .ok undefined
  | num _ => .ok undefined
  | str s =>
    match s.data.get? i with
    | some c => .ok (str (String.singleton c))
    | none => .ok undefined
  | arr items => .ok (items.getD i undefined)
  | obj fields => .ok ((fields.lookup (toString i)).getD undefined)
  | fn _ => .ok undefined

/-- The callback loop of `Array.prototype.map`: the callback runs on the elements in index
order and the first exception it throws ends the loop. -/
def arrayMap {β : Type} (f : JsVal → Except JsError β) : List JsVal → Except JsError (List β)
  | [] => .ok []
  | x :: xs =>
    match f x with
    | .error e => .error e
    | .ok y =>
      match arrayMap f xs with
      | .error e => .error e
      | .ok ys => .ok (y :: ys)

/-- The call `v.map(f)`.  Only an array has a callable `map`; on `undefined` and `null` the
property read throws, on every other value the call of a non-function throws. -/
def callMap {β : Type} (v : JsVal) (f : JsVal → Except JsError β) :
    Except JsError (List β) :=
  match v with
  | arr items => arrayMap f items
  | _ => .error .typeError

end JsVal

/-- The record `Thumbnail` (lines 20-25) as `mapThumbnail` builds it. -/
structure Thumbnail where
  url : JsVal
  width : JsVal
  height : JsVal

/-- The record `Author` (lines 13-18) as `mapAuthor` builds it; a `null` thumbnail is
`none`. -/
structure Author where
  name : JsVal
  email : JsVal
  thumbnail : Option Thumbnail

/-- The record `Post` (lines 1-11) as `mapPost` builds it; a `null` thumbnail is `none`. -/
structure Post where
  link : JsVal
  title : JsVal
  authors : List Author
  summary : JsVal
  content : JsVal
  updated : JsVal
  published : JsVal
  thumbnail : Option Thumbnail

namespace Kanako

open JsVal

/-! ## Response mapping -/

/-- The method `mapThumbnail` (lines 175-182). -/
def mapThumbnail (thumbnail : JsVal) : Except JsError (Option Thumbnail) :=
  if !thumbnail.toBoolean then .ok none
  else do
    let src ← thumbnail.getProp "src"
    let url ← (if src.toBoolean then pure src else thumbnail.getProp "url")
    let width ← thumbnail.getProp "width"
    let height ← thumbnail.getProp "height"
    pure (some { url := url, width := width, height := height })

/-- The method `mapAuthor` (lines 163-169). -/
def mapAuthor (author : JsVal) : Except JsError Author := do
  let name ← (← author.getProp "name").getProp "$t"
  let email ← (← author.getProp "email").getProp "$t"
  let thumbnail ← mapThumbnail (← author.getProp "gd$image")
  pure { name := name, email := email, thumbnail := thumbnail }

/-- The method `mapAuthors` (lines 155-157). -/
def mapAuthors (authors : JsVal) : Except JsError (List Author) :=
  authors.callMap mapAuthor

/-- The conditional expression `post.key ? post.key.$t : null` of lines 143 and 144. -/
def optionalText (post : JsVal) (key : String) : Except JsError JsVal := do
  let test ← post.getProp key
  if test.toBoolean then do
    let wrapper ← post.getProp key
    wrapper.getProp "$t"
  else pure null

/-- The method `mapPost` (lines 138-149): the properties of the object literal are
evaluated in source order. -/
def mapPost (post : JsVal) : Except JsError Post := do
  let link ← (← (← post.getProp "link").getIndex 2).getProp "href"
  let title ← (← post.getProp "title").getProp "$t"
  let authors ← mapAuthors (← post.getProp "author")
  let summary ← optionalText post "summary"
  let content ← optionalText post "content"
  let updated ← (← post.getProp "updated").getProp "$t"
  let published ← (← post.getProp "published").getProp "$t"
  let thumbnail ← mapThumbnail (← post.getProp "media$thumbnail")
  pure { link := link, title := title, authors := authors, summary := summary,
         content := content, updated := updated, published := published,
         thumbnail := thumbnail }

/-- The method `mapPosts` (lines 130-132). -/
def mapPosts (posts : JsVal) : Except JsError (List Post) :=
  posts.callMap mapPost

/-- The method `map` (lines 121-124); `parse` is the platform function `JSON.parse`. -/
def map (parse : String → Except JsError JsVal) (response : String) :
    Except JsError (List Post) := do
  let data ← parse response
  mapPosts (← (← data.getProp "feed").getProp "entry")

/-! ## The request -/

end Kanako

/-- What the transport delivers to the handlers `get` installs on its `XMLHttpRequest`:
a `load` event with the status, status text and body of the response, or an `error` event
(the status text is then whatever the request object holds). -/
inductive XhrEvent where
  | load (status : Nat) (statusText : String) (response : String)
  | error (statusText : String)

/-- The state of the promise `get` returns once the event has been handled. -/
inductive PromiseState where
  | resolved (posts : List Post)
  | rejected (reason : String)
  | pending

/-- The effect of handling an event: the promise, the client afterwards, and the exception
that left the handler uncaught, if any. -/
structure Completion where
  promise : PromiseState
  self : Kanako
  uncaught : Option JsError

namespace PromiseState

/-- Whether the promise is fulfilled. -/
def isResolved : PromiseState → Bool
  | resolved _ => true
  | _ => false

end PromiseState

namespace Kanako

/-- The handler `request.onload` (lines 101-109).  In the success branch the argument
`self.map(request.response)` is evaluated first: when it throws, neither `resolve` nor
`updateStartIndex` runs and the exception leaves the handler. -/
def onload (parse : String → Except JsError JsVal) (self : Kanako)
    (status : Nat) (statusText response : String) : Completion :=
  if 200 ≤ status ∧ status < 300 then
    match map parse response with
    | .ok posts =>
      { promise := .resolved posts, self := updateStartIndex self, uncaught := none }
    | .error e =>
      { promise := .pending, self := self, uncaught := some e }
  else
    { promise := .rejected statusText, self := self, uncaught := none }

/-- The handler `request.onerror` (line 111). -/
def onerror (self : Kanako) (statusText : String) : Completion :=
  { promise := .rejected statusText, self := self, uncaught := none }

/-- The handling of the event that ends a request. -/
def handle (parse : String → Except JsError JsVal) (self : Kanako) : XhrEvent → Completion
  | .load status statusText response => onload parse self status statusText response
  | .error statusText => onerror self statusText

/-- The method `get` (lines 91-115) for a request that is completed before anything else
touches the client: the URL that is requested, built at the call, and the completion. -/
def get (parse : String → Except JsError JsVal) (self : Kanako) (ev : XhrEvent) :
    String × Completion :=
  let requestUrl := buildRequestUrl self
  (requestUrl, handle parse self ev)

/-- The client after a series of calls of `get`, each completed before the next. -/
def fetches (parse : String → Except JsError JsVal) : Kanako → List XhrEvent → Kanako
  | self, [] => self
  | self, ev :: evs => fetches parse (get parse self ev).2.self evs

/-- Whether every call of such a series resolves. -/
def allResolve (parse : String → Except JsError JsVal) : Kanako → List XhrEvent → Bool
  | _, [] => true
  | self, ev :: evs =>
    (get parse self ev).2.promise.isResolved && allResolve parse (get parse self ev).2.self evs

/-! ## Vocabulary of the properties -/

/-- Whether a text occurs in another (`String.prototype.includes`). -/
def includes (text part : String) : Prop := part.data <:+: text.data

/-- Whether a text begins with another (`String.prototype.startsWith`). -/
def startsWith (text part : String) : Prop := part.data <+: text.data

instance (text part : String) : Decidable (includes text part) :=
  List.decidableInfix _ _

/-- The fields whose text reaches the request URL as it is: the base URL, the content mode
and the timestamp bounds that are present. -/
def verbatimFields (self : Kanako) : List String :=
  self.blogUrl :: self.contentMode ::
    [self.updatedMin, self.updatedMax, self.publishedMin, self.publishedMax].filterMap
      presentString

/-- No field that reaches the URL as it is includes the given text. -/
def verbatimFree (self : Kanako) (text : String) : Prop :=
  ∀ v ∈ verbatimFields self, ¬ includes v text

instance (self : Kanako) (text : String) : Decidable (verbatimFree self text) :=
  List.decidableBAll _ _

/-- An event on which a call does not succeed: an error event, a status outside
`[200, 300)`, or a body that `map` does not turn into posts. -/
def isFailure (parse : String → Except JsError JsVal) : XhrEvent → Bool
  | .error _ => true
  | .load status _ response =>
    !(decide (200 ≤ status) && decide (status < 300)) ||
      (match map parse response with
       | .ok _ => false
       | .error _ => true)

/-- Whether a value is `undefined` or `null`. -/
def isNullish : JsVal → Bool
  | .undefined => true
  | .null => true
  | _ => false

/-- Whether a value is a plain object. -/
def isObject : JsVal → Bool
  | .obj _ => true
  | _ => false

/-- The value of a property, `undefined` where the read throws. -/
def field (v : JsVal) (key : String) : JsVal :=
  match v.getProp key with
  | .ok x => x
  | .error _ => .undefined

/-- A value lacks a field when the field reads as `undefined` or `null`. -/
def lacks (v : JsVal) (key : String) : Bool := isNullish (field v key)

/-- The author list of an entry, if it has one. -/
def authorList (entry : JsVal) : Option (List JsVal) :=
  match field entry "author" with
  | .arr authors => some authors
  | _ => none

/-- The link list of an entry; an entry without one has no links. -/
def linkList (entry : JsVal) : Option (List JsVal) :=
  match field entry "link" with
  | .arr links => some links
  | .undefined => some []
  | .null => some []
  | _ => none

/-- An entry is malformed when it lacks `title`, `updated`, `published` or the author
list, when one of its authors lacks `name` or `email`, or when it has fewer than three
links. -/
def isMalformedEntry (entry : JsVal) : Bool :=
  lacks entry "title" || lacks entry "updated" || lacks entry "published" ||
    (match authorList entry with
     | none => true
     | some authors => authors.any fun a => lacks a "name" || lacks a "email") ||
    (match linkList entry with
     | some links => decide (links.length < 3)
     | none => false)

/-- A parsed response lacks the path `feed.entry` when `feed` or its `entry` is missing. -/
def lacksEntryPath (data : JsVal) : Bool :=
  isNullish data || lacks data "feed" || lacks (field data "feed") "entry"

/-- An entry is well formed when its link list holds at least three links, the one at
index 2 an object, its `title`, `updated` and `published` are text wrappers (objects), and
it has an author list whose members have text-wrapped `name` and `email`. -/
def isWellFormedEntry (entry : JsVal) : Bool :=
  (match field entry "link" with
   | .arr links => decide (3 ≤ links.length) && isObject (links.getD 2 .undefined)
   | _ => false) &&
  isObject (field entry "title") && isObject (field entry "updated") &&
  isObject (field entry "published") &&
  (match authorList entry with
   | none => false
   | some authors =>
     authors.all fun a => isObject (field a "name") && isObject (field a "email"))

/-- A stand-in for `JSON.parse` on a given table of texts; any other text is not JSON. -/
def tableParse (table : List (String × JsVal)) (text : String) : Except JsError JsVal :=
  match table.lookup text with
  | some v => .ok v
  | none => .error .syntaxError

/-- A value that can stand for an optional text: missing (`undefined` or `null`), or a
wrapper object whose `$t` is a string. -/
def isOptionalText (v : JsVal) : Bool :=
  isNullish v ||
    (isObject v &&
      match field v "$t" with
      | .str _ => true
      | _ => false)

/-- Upper-case hexadecimal digits. -/
def isHexDigit (c : Char) : Bool :=
  (48 ≤ c.toNat && c.toNat ≤ 57) || (65 ≤ c.toNat && c.toNat ≤ 70)

/-- A text that consists of unreserved characters and escapes `%XX`, read with the given
number of hexadecimal digits of an escape still due. -/
def isEncodedFrom : Nat → List Char → Bool
  | 0, [] => true
  | 0, c :: cs => if c = '%' then isEncodedFrom 2 cs else isUnreserved c && isEncodedFrom 0 cs
  | _ + 1, [] => false
  | due + 1, c :: cs => isHexDigit c && isEncodedFrom due cs

/-- A text that consists of unreserved characters and escapes `%XX` only. -/
def isEncodedText (text : List Char) : Bool := isEncodedFrom 0 text

/-! ## Calls of the methods -/

/-- A call of a method of the class, with its arguments; for `get`, the event that ends
the request. -/
inductive Call where
  | get (ev : XhrEvent)
  | resetStartIndex
  | updateStartIndex
  | buildRequestUrl
  | map (response : String)
  | mapPosts (posts : JsVal)
  | mapPost (post : JsVal)
  | mapAuthors (authors : JsVal)
  | mapAuthor (author : JsVal)
  | mapThumbnail (thumbnail : JsVal)

/-- The client after a call.  Of the methods only `get` (through `updateStartIndex` in its
`onload` handler), `resetStartIndex` and `updateStartIndex` assign a field;
`buildRequestUrl` (lines 187-197) and the mapping methods (lines 121-182) read `this` and
assign nothing. -/
def Call.after (parse : String → Except JsError JsVal) (self : Kanako) : Call → Kanako
  | .get ev => (Kanako.get parse self ev).2.self
  | .resetStartIndex => Kanako.resetStartIndex self
  | .updateStartIndex => Kanako.updateStartIndex self
  | .buildRequestUrl => self
  | .map _ => self
  | .mapPosts _ => self
  | .mapPost _ => self
  | .mapAuthors _ => self
  | .mapAuthor _ => self
  | .mapThumbnail _ => self

/-- The client after a series of calls, each completed before the next. -/
def afterCalls (parse : String → Except JsError JsVal) : Kanako → List Call → Kanako
  | self, [] => self
  | self, c :: cs => afterCalls parse (Call.after parse self c) cs

/-! ## Overlapping requests -/

/-- The two uninterrupted pieces of a call of `get`: its synchronous part, which builds the
URL and sends the request (lines 92-99 and 113), and the handler that runs when the
request ends (lines 101-111). -/
inductive Step where
  | start
  | complete (ev : XhrEvent)

/-- The client and the URLs requested so far, oldest first. -/
structure Session where
  self : Kanako
  requested : List String

/-- One step: a start records the URL built from the client as it is now; a completion
handles the event on the client as it is now. -/
def step (parse : String → Except JsError JsVal) (s : Session) : Step → Session
  | .start => { s with requested := s.requested ++ [buildRequestUrl s.self] }
  | .complete ev => { s with self := (handle parse s.self ev).self }

/-- A series of steps in the order in which the event loop runs them. -/
def run (parse : String → Except JsError JsVal) : Session → List Step → Session
  | s, [] => s
  | s, st :: sts => run parse (step parse s st) sts

/-! ## Sample data for the instances -/

/-- A text wrapper `\x7b"$t": text\x7d`. -/
def textWrapper (text : String) : JsVal := .obj [("$t", .str text)]

/-- A link object with the given `href`. -/
def sampleLink (href : String) : JsVal :=
  .obj [("rel", .str "alternate"), ("type", .str "text/html"), ("href", .str href)]

/-- An entry as the platform sends it: three links, one author with a profile image,
content, no summary, no thumbnail. -/
def sampleEntry : JsVal :=
  .obj [("published", textWrapper "2020-01-01T00:00:00Z"),
        ("updated", textWrapper "2020-01-02T00:00:00Z"),
        ("title", textWrapper "Hello"),
        ("content", textWrapper "<p>Hi</p>"),
        ("link", .arr [sampleLink "https://x.com/replies", sampleLink "https://x.com/self",
                       sampleLink "https://x.com/hello.html"]),
        ("author", .arr [.obj [("name", textWrapper "Ann"), ("email", textWrapper "a@x.com"),
                               ("gd$image", .obj [("src", .str "https://x.com/a.png"),
                                                  ("width", .str "16"),
                                                  ("height", .str "16")])]])]

/-- The post of `sampleEntry`. -/
def samplePost : Post :=
  { link := .str "https://x.com/hello.html"
    title := .str "Hello"
    authors := [{ name := .str "Ann", email := .str "a@x.com",
                  thumbnail := some { url := .str "https://x.com/a.png", width := .str "16",
                                      height := .str "16" } }]
    summary := .null
    content := .str "<p>Hi</p>"
    updated := .str "2020-01-02T00:00:00Z"
    published := .str "2020-01-01T00:00:00Z"
    thumbnail := none }

/-- An entry with a summary whose text is empty, no content and no authors. -/
def sampleEntryEmptySummary : JsVal :=
  .obj [("published", textWrapper "2020-01-01T00:00:00Z"),
        ("updated", textWrapper "2020-01-02T00:00:00Z"),
        ("title", textWrapper "Hello"),
        ("summary", textWrapper ""),
        ("link", .arr [sampleLink "https://x.com/replies", sampleLink "https://x.com/self",
                       sampleLink "https://x.com/hello.html"]),
        ("author", .arr [])]

/-- An image object whose `src` is the empty text. -/
def sampleImageEmptySrc : JsVal :=
  .obj [("src", .str ""), ("url", .str "b"), ("width", .str "16"), ("height", .str "9")]

/-- An entry like `sampleEntry` but with two links only. -/
def sampleEntryTwoLinks : JsVal :=
  .obj [("published", textWrapper "2020-01-01T00:00:00Z"),
        ("updated", textWrapper "2020-01-02T00:00:00Z"),
        ("title", textWrapper "Hello"),
        ("link", .arr [sampleLink "https://x.com/replies", sampleLink "https://x.com/self"]),
        ("author", .arr [])]

/-- A client whose page size is `2^53`. -/
def hugePageClient : Kanako := Kanako.constructor "https://x.com/" (some 9007199254740992)

/-- A client whose page size is `2^53 + 2`. -/
def hugerPageClient : Kanako := Kanako.constructor "https://x.com/" (some 9007199254740994)

/-- A client that has every optional parameter switched off. -/
def bareClient : Kanako :=
  { Kanako.constructor "https://x.com/" none with startIndex := 0, maxResults := 0 }

/-- A client without page size whose search term spells out a parameter. -/
def searchingClient : Kanako :=
  { Kanako.constructor "https://x.com/" none with
    maxResults := 0, searchQuery := some "a&max-results=9",
    updatedMin := some "2020-01-01T00:00:00Z" }

/-- A client without page size one of whose timestamp bounds spells out a parameter. -/
def injectingClient : Kanako :=
  { Kanako.constructor "https://x.com/" none with
    maxResults := 0, updatedMin := some "2020&max-results=5" }

/-- A feed envelope around a list of entries. -/
def feedOf (entries : List JsVal) : JsVal :=
  .obj [("feed", .obj [("entry", .arr entries)])]

/-- A stand-in for `JSON.parse` that knows four bodies: a page of two entries, a page whose
second entry is malformed, a page without entries, and an object without `feed`. -/
def sampleParse : String → Except JsError JsVal :=
  tableParse [("page", feedOf [sampleEntry, sampleEntry]),
              ("bad", feedOf [sampleEntry, sampleEntryTwoLinks]),
              ("none", feedOf []),
              ("empty", .obj [])]

end Kanako

/-! # Properties -/

namespace Kanako

/-! ## Request construction -/

theorem extend_number (url lit name : String) (h : lit = "&" ++ name ++ "=") (n : Int) :
    (if numTruthy n then url ++ (lit ++ numberToString n) else url)
      = url ++ segment name (presentNumber n) := by
  subst h
  by_cases hn : n = 0
  · simp [numTruthy, presentNumber, segment, hn]
  · simp [numTruthy, presentNumber, segment, hn]

theorem extend_encoded (url lit name : String) (h : lit = "&" ++ name ++ "=")
    (f : String → String) (v : Option String) :
    (if strTruthy v then url ++ (lit ++ f (strValue v)) else url)
      = url ++ segment name ((presentString v).map f) := by
  subst h
  rcases v with _ | s
  · simp [strTruthy, presentString, segment]
  · by_cases hs : s = ""
    · simp [strTruthy, presentString, segment, hs]
    · simp [strTruthy, presentString, segment, hs, strValue]

theorem extend_string (url lit name : String) (h : lit = "&" ++ name ++ "=")
    (v : Option String) :
    (if strTruthy v then url ++ (lit ++ strValue v) else url)
      = url ++ segment name (presentString v) := by
  have := extend_encoded url lit name h id v
  simpa using this

/-- The statements of `buildRequestUrl` append exactly the segments of the parameters. -/
theorem buildRequestUrl_segments (self : Kanako) :
    buildRequestUrl self = specRequestUrl self := by
  unfold buildRequestUrl specRequestUrl parameters urlHead
  simp only []
  rw [extend_number _ "&start-index=" "start-index" rfl,
    extend_number _ "&max-results=" "max-results" rfl,
    extend_encoded _ "&q=" "q" rfl,
    extend_string _ "&updated-min=" "updated-min" rfl,
    extend_string _ "&updated-max=" "updated-max" rfl,
    extend_string _ "&published-min=" "published-min" rfl,
    extend_string _ "&published-max=" "published-max" rfl]
  apply String.ext
  simp [String.data_join]

/-- The URL with the first parameter split off. -/
theorem buildRequestUrl_cursor (self : Kanako) :
    buildRequestUrl self
      = urlHead self ++ segment "start-index" (presentNumber self.startIndex)
        ++ String.join (((parameters self).drop 1).map fun p => segment p.1 p.2) := by
  rw [buildRequestUrl_segments]
  apply String.ext
  simp [specRequestUrl, parameters, String.data_join]

/-- C1: for every client state `buildRequestUrl` returns the head
`blogUrl ++ "feeds/posts/" ++ contentMode ++ "?alt=json"` followed by the segments, in the
fixed order start-index, max-results, q, updated-min, updated-max, published-min,
published-max, of the fields that are present (a non-zero number, a non-null non-empty
string), the q value URL-encoded and every other value verbatim. -/
theorem buildRequestUrl_exact (self : Kanako) :
    buildRequestUrl self = specRequestUrl self ∧
    specRequestUrl self
      = self.blogUrl ++ "feeds/posts/" ++ self.contentMode ++ "?alt=json" ++
        String.join
          [ segment "start-index" (presentNumber self.startIndex),
            segment "max-results" (presentNumber self.maxResults),
            segment "q" ((presentString self.searchQuery).map encodeURIComponent),
            segment "updated-min" (presentString self.updatedMin),
            segment "updated-max" (presentString self.updatedMax),
            segment "published-min" (presentString self.publishedMin),
            segment "published-max" (presentString self.publishedMax) ] :=
  ⟨buildRequestUrl_segments self, rfl⟩

/-! ## Pagination cursor -/

theorem parameters_drop_one (a b : Kanako) (h2 : a.maxResults = b.maxResults)
    (h3 : a.searchQuery = b.searchQuery) (h4 : a.updatedMin = b.updatedMin)
    (h5 : a.updatedMax = b.updatedMax) (h6 : a.publishedMin = b.publishedMin)
    (h7 : a.publishedMax = b.publishedMax) :
    (parameters a).drop 1 = (parameters b).drop 1 := by
  simp [parameters, h2, h3, h4, h5, h6, h7]

theorem onload_resolves (parse : String → Except JsError JsVal) (self : Kanako)
    (status : Nat) (statusText response : String) (posts : List Post)
    (h : 200 ≤ status ∧ status < 300) (hm : map parse response = .ok posts) :
    onload parse self status statusText response
      = { promise := .resolved posts, self := updateStartIndex self, uncaught := none } := by
  simp [onload, h, hm]

theorem onload_throws (parse : String → Except JsError JsVal) (self : Kanako)
    (status : Nat) (statusText response : String) (e : JsError)
    (h : 200 ≤ status ∧ status < 300) (hm : map parse response = .error e) :
    onload parse self status statusText response
      = { promise := .pending, self := self, uncaught := some e } := by
  simp [onload, h, hm]

theorem onload_rejects (parse : String → Except JsError JsVal) (self : Kanako)
    (status : Nat) (statusText response : String) (h : ¬ (200 ≤ status ∧ status < 300)) :
    onload parse self status statusText response
      = { promise := .rejected statusText, self := self, uncaught := none } := by
  simp only [onload, if_neg h]

/-- Handling an event leaves the client as it is or advances its cursor, the latter
exactly when the promise resolves. -/
theorem handle_self (parse : String → Except JsError JsVal) (self : Kanako) (ev : XhrEvent) :
    (handle parse self ev).self
      = if (handle parse self ev).promise.isResolved then updateStartIndex self else self := by
  cases ev with
  | error txt => simp [handle, onerror, PromiseState.isResolved]
  | load st txt body =>
    simp only [handle]
    by_cases h : 200 ≤ st ∧ st < 300
    · cases hm : map parse body with
      | ok posts => simp [onload_resolves parse self st txt body posts h hm, PromiseState.isResolved]
      | error e => simp [onload_throws parse self st txt body e h hm, PromiseState.isResolved]
    · simp [onload_rejects parse self st txt body h, PromiseState.isResolved]

/-- An integer of magnitude below `2^53` is a number of the platform. -/
theorem roundToDouble_exact (x : Int) (h : x.natAbs < 9007199254740992) :
    roundToDouble x = x := by
  simp only [roundToDouble, if_pos h]

/-- The sum of two numbers is exact when the exact sum is a safe integer. -/
theorem numberAdd_exact (a b : Int) (h : isSafeInteger (a + b) = true) :
    numberAdd a b = a + b := by
  simp only [isSafeInteger, decide_eq_true_eq] at h
  exact roundToDouble_exact _ h

theorem isSafeInteger_of_bounds (x : Int) (h0 : 0 ≤ x) (h1 : x < 9007199254740992) :
    isSafeInteger x = true := by
  simp only [isSafeInteger, decide_eq_true_eq]
  omega

theorem lt_of_isSafeInteger (x : Int) (h : isSafeInteger x = true) :
    x < 9007199254740992 := by
  simp only [isSafeInteger, decide_eq_true_eq] at h
  omega

/-- After a series of resolving calls the cursor has advanced by the page size once per
call and no other field has changed, as long as the cursor stays a safe integer. -/
theorem fetches_resolved (parse : String → Except JsError JsVal) (evs : List XhrEvent) :
    ∀ self : Kanako, allResolve parse self evs = true → 0 ≤ self.startIndex →
      0 ≤ self.maxResults →
      isSafeInteger (self.startIndex + (evs.length : Int) * self.maxResults) = true →
      fetches parse self evs
        = { self with startIndex := self.startIndex + (evs.length : Int) * self.maxResults } := by
  induction evs with
  | nil => intro self _ _ _ _; simp [fetches]
  | cons ev evs ih =>
    intro self h hc hP hsafe
    simp only [allResolve, Bool.and_eq_true, get] at h
    have hs := handle_self parse self ev
    rw [h.1] at hs
    simp only [if_true] at hs
    have hrest : (0 : Int) ≤ (evs.length : Int) * self.maxResults :=
      mul_nonneg (Int.natCast_nonneg _) hP
    have hlen : ((ev :: evs).length : Int) * self.maxResults
        = self.maxResults + (evs.length : Int) * self.maxResults := by
      simp only [List.length_cons]
      push_cast
      ring
    rw [hlen] at hsafe ⊢
    have hlt := lt_of_isSafeInteger _ hsafe
    have hstep : numberAdd self.startIndex self.maxResults
        = self.startIndex + self.maxResults :=
      numberAdd_exact _ _ (isSafeInteger_of_bounds _ (by omega) (by omega))
    have hup : updateStartIndex self
        = { self with startIndex := self.startIndex + self.maxResults } := by
      simp only [updateStartIndex, hstep]
    simp only [fetches, get]
    rw [hs] at h ⊢
    rw [hup] at h ⊢
    rw [ih _ h.2 (by simp only; omega) hP (by
      simp only
      rw [← hsafe]
      congr 1
      ring)]
    simp only
    congr 1
    ring

theorem updateStartIndex_zero (self : Kanako) (h : self.maxResults = 0)
    (hnum : roundToDouble self.startIndex = self.startIndex) :
    updateStartIndex self = self := by
  cases self
  simp only [updateStartIndex, numberAdd] at h hnum ⊢
  simp [h, hnum]

/-- With page size zero no series of calls changes a client whose cursor is a number. -/
theorem fetches_zero (parse : String → Except JsError JsVal) (evs : List XhrEvent) :
    ∀ self : Kanako, self.maxResults = 0 →
      roundToDouble self.startIndex = self.startIndex → fetches parse self evs = self := by
  induction evs with
  | nil => intro self _ _; rfl
  | cons ev evs ih =>
    intro self h hnum
    have hs : (handle parse self ev).self = self := by
      rw [handle_self, updateStartIndex_zero self h hnum]
      simp
    simp only [fetches, get]
    rw [hs]
    exact ih self h hnum

/-- C3 (amended): after `N` consecutive resolving calls of `get` on a client whose cursor is
1 (fresh or just reset) and whose page size `P` is positive, the cursor is `1 + N * P` and
the next request URL carries `&start-index=` with that number right after the head,
provided `1 + N * P` is a safe integer (at most `2^53 - 1`); with page size 0 the cursor,
any number, and the request URL stay as they were across all the calls. -/
theorem cursor_after_fetches (parse : String → Except JsError JsVal) (self : Kanako)
    (evs : List XhrEvent) (hres : allResolve parse self evs = true) :
    (self.startIndex = 1 → 0 < self.maxResults →
      isSafeInteger (1 + (evs.length : Int) * self.maxResults) = true →
      (fetches parse self evs).maxResults = self.maxResults ∧
      (fetches parse self evs).startIndex = 1 + (evs.length : Int) * self.maxResults ∧
      buildRequestUrl (fetches parse self evs)
        = urlHead self
          ++ ("&start-index=" ++ numberToString (1 + (evs.length : Int) * self.maxResults))
          ++ String.join (((parameters self).drop 1).map fun p => segment p.1 p.2)) ∧
    (self.maxResults = 0 → roundToDouble self.startIndex = self.startIndex →
      ∀ k : Nat, k ≤ evs.length →
      (fetches parse self (evs.take k)).startIndex = self.startIndex ∧
      buildRequestUrl (fetches parse self (evs.take k)) = buildRequestUrl self) := by
  constructor
  · intro h1 hP hsafe
    have hf := fetches_resolved parse evs self hres (by omega) (le_of_lt hP)
      (by rw [h1]; exact hsafe)
    have hne : (1 : Int) + (evs.length : Int) * self.maxResults ≠ 0 := by
      have : (0 : Int) ≤ (evs.length : Int) * self.maxResults :=
        mul_nonneg (Int.natCast_nonneg _) (le_of_lt hP)
      omega
    refine ⟨by rw [hf], by rw [hf, h1], ?_⟩
    rw [buildRequestUrl_cursor, hf]
    simp only [h1]
    have hd : (parameters { self with
          startIndex := 1 + (evs.length : Int) * self.maxResults }).drop 1
        = (parameters self).drop 1 :=
      parameters_drop_one _ _ rfl rfl rfl rfl rfl rfl
    rw [hd]
    simp only [urlHead, presentNumber, if_neg hne, segment]
    rfl
  · intro h0 hnum k _
    rw [fetches_zero parse (evs.take k) self h0 hnum]
    exact ⟨rfl, rfl⟩

/-- C3 (instance): two resolving calls with page size 2 lead to a request for
`start-index=5`, and with page size 0 the request stays the first one. -/
theorem cursor_after_fetches_witness :
    buildRequestUrl (fetches sampleParse
        (Kanako.constructor "https://x.com/" (some 2))
        [.load 200 "OK" "page", .load 299 "" "page"])
      = "https://x.com/feeds/posts/default?alt=json&start-index=5&max-results=2" ∧
    buildRequestUrl (fetches sampleParse
        { Kanako.constructor "https://x.com/" none with maxResults := 0 }
        [.load 200 "OK" "page", .load 200 "OK" "page"])
      = "https://x.com/feeds/posts/default?alt=json&start-index=1" :=
  ⟨((cursor_after_fetches sampleParse
      (Kanako.constructor "https://x.com/" (some 2))
      [.load 200 "OK" "page", .load 299 "" "page"] rfl).1 rfl (by decide) (by decide)).2.2,
   ((cursor_after_fetches sampleParse
      { Kanako.constructor "https://x.com/" none with maxResults := 0 }
      [.load 200 "OK" "page", .load 200 "OK" "page"] rfl).2 rfl (by decide) 2
      (by decide)).2⟩

/-- C3 (counterexample): a client with cursor 1 and page size `2^53` is, after one
resolving call, at cursor `2^53`, not at `1 + 1 * 2^53`: the sum of the two numbers is
rounded, and the next request URL carries `start-index=9007199254740992`. -/
theorem cursor_after_fetches_counterexample :
    hugePageClient.startIndex = 1 ∧ hugePageClient.maxResults = 9007199254740992 ∧
    allResolve sampleParse hugePageClient [.load 200 "OK" "page"] = true ∧
    (fetches sampleParse hugePageClient [.load 200 "OK" "page"]).startIndex
      = 9007199254740992 ∧
    (fetches sampleParse hugePageClient [.load 200 "OK" "page"]).startIndex
      ≠ 1 + 1 * hugePageClient.maxResults ∧
    buildRequestUrl (fetches sampleParse hugePageClient [.load 200 "OK" "page"])
      = "https://x.com/feeds/posts/default?alt=json&start-index=9007199254740992&max-results=9007199254740992" := by
  refine ⟨rfl, rfl, rfl, by decide, by decide, by decide⟩

/-- C4: whatever the client state, after `resetStartIndex` the next request URL has the
segment `&start-index=1` directly after the head, followed by the segments of the other
parameters as before; `resetStartIndex` is idempotent. -/
theorem reset_then_request (parse : String → Except JsError JsVal) (self : Kanako)
    (ev : XhrEvent) :
    (get parse (resetStartIndex self) ev).1
      = urlHead self ++ "&start-index=1"
        ++ String.join (((parameters self).drop 1).map fun p => segment p.1 p.2) ∧
    buildRequestUrl (resetStartIndex self) = (get parse (resetStartIndex self) ev).1 ∧
    resetStartIndex (resetStartIndex self) = resetStartIndex self := by
  refine ⟨?_, rfl, rfl⟩
  simp only [get]
  rw [buildRequestUrl_cursor]
  have hd : (parameters (resetStartIndex self)).drop 1 = (parameters self).drop 1 :=
    parameters_drop_one _ _ rfl rfl rfl rfl rfl rfl
  rw [hd]
  rfl

/-! ## Handling of the response -/

/-- C5: on a response with status in `[200, 300)` whose body `map` turns into posts, `get`
resolves with exactly those posts and the client afterwards differs only in its cursor,
which is the sum `startIndex + maxResults` of the two numbers (the exact sum wherever that
is a safe integer); on a status outside the range the promise is not resolved. -/
theorem get_success (parse : String → Except JsError JsVal) (self : Kanako)
    (status : Nat) (statusText response : String) (posts : List Post)
    (hlo : 200 ≤ status) (hhi : status < 300) (hm : map parse response = .ok posts) :
    (get parse self (.load status statusText response)).2.promise = .resolved posts ∧
    (get parse self (.load status statusText response)).2.self
      = { self with startIndex := numberAdd self.startIndex self.maxResults } ∧
    (isSafeInteger (self.startIndex + self.maxResults) = true →
      (get parse self (.load status statusText response)).2.self
        = { self with startIndex := self.startIndex + self.maxResults }) ∧
    (∀ other : Nat, other < 200 ∨ 300 ≤ other →
      (get parse self (.load other statusText response)).2.promise.isResolved = false) := by
  have hself : (get parse self (.load status statusText response)).2.self
      = { self with startIndex := numberAdd self.startIndex self.maxResults } := by
    simp only [get, handle]
    rw [onload_resolves parse self status statusText response posts ⟨hlo, hhi⟩ hm]
    rfl
  refine ⟨?_, hself, ?_, ?_⟩
  · simp only [get, handle]
    rw [onload_resolves parse self status statusText response posts ⟨hlo, hhi⟩ hm]
  · intro hsafe
    rw [hself, numberAdd_exact _ _ hsafe]
  · intro other h
    have hn : ¬ (200 ≤ other ∧ other < 300) := by omega
    simp only [get, handle]
    rw [onload_rejects parse self other statusText response hn]
    rfl

/-- C5 (instance): on a page of two entries status 200 and status 299 resolve with the two
posts and move the cursor from 1 to 3; status 199 and status 300 do not resolve. -/
theorem get_success_witness :
    ((get sampleParse (Kanako.constructor "https://x.com/" (some 2))
        (.load 200 "OK" "page")).2.promise = .resolved [samplePost, samplePost] ∧
     (get sampleParse (Kanako.constructor "https://x.com/" (some 2))
        (.load 200 "OK" "page")).2.self
        = { Kanako.constructor "https://x.com/" (some 2) with startIndex := 1 + 2 } ∧
     (get sampleParse (Kanako.constructor "https://x.com/" (some 2))
        (.load 199 "OK" "page")).2.promise.isResolved = false) ∧
    ((get sampleParse (Kanako.constructor "https://x.com/" (some 2))
        (.load 299 "OK" "page")).2.promise = .resolved [samplePost, samplePost] ∧
     (get sampleParse (Kanako.constructor "https://x.com/" (some 2))
        (.load 300 "OK" "page")).2.promise.isResolved = false) :=
  ⟨⟨(get_success sampleParse (Kanako.constructor "https://x.com/" (some 2)) 200 "OK" "page"
        [samplePost, samplePost] (by decide) (by decide) rfl).1,
    (get_success sampleParse (Kanako.constructor "https://x.com/" (some 2)) 200 "OK" "page"
        [samplePost, samplePost] (by decide) (by decide) rfl).2.2.1 (by decide),
    (get_success sampleParse (Kanako.constructor "https://x.com/" (some 2)) 200 "OK" "page"
        [samplePost, samplePost] (by decide) (by decide) rfl).2.2.2 199 (Or.inl (by decide))⟩,
   ⟨(get_success sampleParse (Kanako.constructor "https://x.com/" (some 2)) 299 "OK" "page"
        [samplePost, samplePost] (by decide) (by decide) rfl).1,
    (get_success sampleParse (Kanako.constructor "https://x.com/" (some 2)) 299 "OK" "page"
        [samplePost, samplePost] (by decide) (by decide) rfl).2.2.2 300 (Or.inr (by decide))⟩⟩

/-- C6: on a response whose status is outside `[200, 300)` and on an error event, `get`
rejects with the status text of the request and no posts are produced. -/
theorem get_rejects (parse : String → Except JsError JsVal) (self : Kanako)
    (statusText : String) :
    (∀ (status : Nat) (response : String), status < 200 ∨ 300 ≤ status →
      (get parse self (.load status statusText response)).2.promise = .rejected statusText ∧
      (get parse self (.load status statusText response)).2.promise.isResolved = false) ∧
    (get parse self (.error statusText)).2.promise = .rejected statusText ∧
    (get parse self (.error statusText)).2.promise.isResolved = false := by
  refine ⟨?_, rfl, rfl⟩
  intro status response h
  have hn : ¬ (200 ≤ status ∧ status < 300) := by omega
  simp only [get, handle]
  rw [onload_rejects parse self status statusText response hn]
  exact ⟨rfl, rfl⟩

/-- C6 (instance): a 404 response rejects with its status text, whatever its body. -/
theorem get_rejects_witness :
    (get sampleParse
        (Kanako.constructor "https://x.com/" (some 2)) (.load 404 "Not Found" "page")).2.promise
      = .rejected "Not Found" :=
  ((get_rejects sampleParse
      (Kanako.constructor "https://x.com/" (some 2)) "Not Found").1 404 "page"
      (Or.inr (by decide))).1

/-- C7: a call that does not succeed (an error event, a status outside `[200, 300)`, a
body that is not JSON or that the mapping rejects) leaves the client exactly as it was,
cursor and configuration, so the next request URL is the one built before the call; and
it does not resolve. -/
theorem get_failure_atomic (parse : String → Except JsError JsVal) (self : Kanako)
    (ev : XhrEvent) (hfail : isFailure parse ev = true) :
    (get parse self ev).2.self = self ∧
    buildRequestUrl (get parse self ev).2.self = (get parse self ev).1 ∧
    (get parse self ev).2.promise.isResolved = false := by
  have key : (get parse self ev).2.self = self ∧
      (get parse self ev).2.promise.isResolved = false := by
    cases ev with
    | error txt => exact ⟨rfl, rfl⟩
    | load st txt body =>
      simp only [get, handle]
      by_cases h : 200 ≤ st ∧ st < 300
      · cases hm : map parse body with
        | ok posts => simp [isFailure, h, hm] at hfail
        | error e =>
          rw [onload_throws parse self st txt body e h hm]
          exact ⟨rfl, rfl⟩
      · rw [onload_rejects parse self st txt body h]
        exact ⟨rfl, rfl⟩
  refine ⟨key.1, ?_, key.2⟩
  rw [key.1]
  rfl

/-- C7 (instance): a 404 response, an error event, a body that is not JSON and a body
without entries each leave a client at cursor 1 with page size 2 as it was. -/
theorem get_failure_atomic_witness :
    (get sampleParse (Kanako.constructor "https://x.com/" (some 2))
        (.load 404 "Not Found" "")).2.self = Kanako.constructor "https://x.com/" (some 2) ∧
    (get sampleParse (Kanako.constructor "https://x.com/" (some 2))
        (.error "")).2.self = Kanako.constructor "https://x.com/" (some 2) ∧
    (get sampleParse (Kanako.constructor "https://x.com/" (some 2))
        (.load 200 "OK" "<html>")).2.self = Kanako.constructor "https://x.com/" (some 2) ∧
    (get sampleParse (Kanako.constructor "https://x.com/" (some 2))
        (.load 200 "OK" "empty")).2.self = Kanako.constructor "https://x.com/" (some 2) :=
  ⟨(get_failure_atomic sampleParse
      (Kanako.constructor "https://x.com/" (some 2)) (.load 404 "Not Found" "") rfl).1,
   (get_failure_atomic sampleParse
      (Kanako.constructor "https://x.com/" (some 2)) (.error "") rfl).1,
   (get_failure_atomic sampleParse
      (Kanako.constructor "https://x.com/" (some 2)) (.load 200 "OK" "<html>") rfl).1,
   (get_failure_atomic sampleParse
      (Kanako.constructor "https://x.com/" (some 2)) (.load 200 "OK" "empty") rfl).1⟩

/-- C8 (the code at the failing inputs): on a 200 response whose body is not JSON, and on
one whose body lacks `feed.entry`, the promise `get` returns is neither rejected nor
resolved: it stays pending, the exception leaving the `onload` handler uncaught. -/
theorem get_malformed_pending :
    (get sampleParse (Kanako.constructor "https://x.com/" (some 2))
        (.load 200 "OK" "<html>")).2.promise = .pending ∧
    (get sampleParse (Kanako.constructor "https://x.com/" (some 2))
        (.load 200 "OK" "<html>")).2.uncaught = some .syntaxError ∧
    (get sampleParse (Kanako.constructor "https://x.com/" (some 2))
        (.load 200 "OK" "empty")).2.promise = .pending ∧
    (get sampleParse (Kanako.constructor "https://x.com/" (some 2))
        (.load 200 "OK" "empty")).2.uncaught = some .typeError :=
  ⟨rfl, rfl, rfl, rfl⟩

end Kanako

namespace Kanako
open JsVal

/-! ## Response mapping -/

theorem bind_ok {α β : Type} (x : Except JsError α) (f : α → Except JsError β) (b : β) :
    (x >>= f) = .ok b ↔ ∃ a, x = .ok a ∧ f a = .ok b := by
  cases x <;> simp [bind, Except.bind]

/-- A computation that can only fail with a `TypeError`. -/
theorem typeError_bind {α β : Type} (x : Except JsError α) (f : α → Except JsError β)
    (hx : ∀ e, x = .error e → e = .typeError)
    (hf : ∀ a e, f a = .error e → e = .typeError) :
    ∀ e, (x >>= f) = .error e → e = .typeError := by
  intro e h
  cases x with
  | error e0 =>
    simp only [bind, Except.bind] at h
    injection h with h
    exact hx e (by rw [h])
  | ok a =>
    simp only [bind, Except.bind] at h
    exact hf a e h

theorem getProp_error (v : JsVal) (key : String) :
    ∀ e, v.getProp key = .error e → e = .typeError := by
  intro e h
  cases v <;> simp only [getProp] at h <;>
    first
    | (cases h <;> rfl)
    | (split_ifs at h)

theorem getIndex_error (v : JsVal) (i : Nat) :
    ∀ e, v.getIndex i = .error e → e = .typeError := by
  intro e h
  cases v <;> simp only [getIndex] at h <;>
    first
    | (cases h <;> rfl)
    | (split at h <;> cases h)

theorem getProp_of_not_nullish (v : JsVal) (h : isNullish v = false) (key : String) :
    v.getProp key = .ok (field v key) := by
  cases v <;> simp only [isNullish] at h <;> first | contradiction | skip
  all_goals simp only [field, getProp]
  all_goals first | rfl | (split_ifs <;> rfl)

theorem not_nullish_of_getProp {v a : JsVal} {key : String} (h : v.getProp key = .ok a) :
    isNullish v = false := by
  cases v <;> first | rfl | (simp only [getProp] at h; injection h)

theorem not_nullish_of_getIndex {v a : JsVal} {i : Nat} (h : v.getIndex i = .ok a) :
    isNullish v = false := by
  cases v <;> first | rfl | (simp only [getIndex] at h; injection h)

theorem field_of_getProp {v a : JsVal} {key : String} (h : v.getProp key = .ok a) :
    field v key = a := by
  simp only [field, h]

theorem not_nullish_of_field {v : JsVal} {key : String} (h : isNullish (field v key) = false) :
    isNullish v = false := by
  cases v <;> first | rfl | (simp [field, getProp, isNullish] at h)

theorem not_nullish_of_truthy {v : JsVal} (h : v.toBoolean = true) : isNullish v = false := by
  cases v <;> first | rfl | (simp [toBoolean] at h)

theorem not_nullish_of_object {v : JsVal} (h : isObject v = true) : isNullish v = false := by
  cases v <;> first | rfl | (simp [isObject] at h)

/-- The method `mapThumbnail` never throws. -/
theorem mapThumbnail_total (t : JsVal) : ∃ r, mapThumbnail t = .ok r := by
  by_cases h : t.toBoolean = true
  · have hn := not_nullish_of_truthy h
    simp only [mapThumbnail, h, getProp_of_not_nullish t hn, Bool.not_true, Bool.false_eq_true,
      if_false, bind, Except.bind, pure, Except.pure]
    split_ifs <;> exact ⟨_, rfl⟩
  · simp only [Bool.not_eq_true] at h
    exact ⟨none, by simp [mapThumbnail, h]⟩

theorem mapThumbnail_error (t : JsVal) : ∀ e, mapThumbnail t = .error e → e = .typeError := by
  intro e h
  obtain ⟨r, hr⟩ := mapThumbnail_total t
  rw [hr] at h
  cases h

/-- On a value that is neither `undefined` nor `null` the conditional expression of
`summary` and `content` never throws. -/
theorem optionalText_total (post : JsVal) (h : isNullish post = false) (key : String) :
    ∃ r, optionalText post key = .ok r := by
  simp only [optionalText, getProp_of_not_nullish post h, bind, Except.bind, pure, Except.pure]
  by_cases ht : (field post key).toBoolean = true
  · rw [if_pos ht, getProp_of_not_nullish _ (not_nullish_of_truthy ht)]
    exact ⟨_, rfl⟩
  · rw [if_neg ht]
    exact ⟨_, rfl⟩

theorem optionalText_error (post : JsVal) (key : String) :
    ∀ e, optionalText post key = .error e → e = .typeError := by
  unfold optionalText
  apply typeError_bind _ _ (getProp_error _ _)
  intro a e h
  split_ifs at h
  · exact typeError_bind _ _ (getProp_error _ _) (fun w => getProp_error w _) e h
  · cases h

theorem mapAuthor_error (author : JsVal) :
    ∀ e, mapAuthor author = .error e → e = .typeError := by
  unfold mapAuthor
  refine typeError_bind _ _ (getProp_error _ _) fun a => ?_
  refine typeError_bind _ _ (getProp_error _ _) fun a => ?_
  refine typeError_bind _ _ (getProp_error _ _) fun a => ?_
  refine typeError_bind _ _ (getProp_error _ _) fun a => ?_
  refine typeError_bind _ _ (getProp_error _ _) fun a => ?_
  refine typeError_bind _ _ (mapThumbnail_error _) fun a => ?_
  intro e h
  cases h

/-- An author whose `name` and `email` are objects is mapped, to the `$t` of both. -/
theorem mapAuthor_ok (author : JsVal) (hn : isObject (field author "name") = true)
    (he : isObject (field author "email") = true) :
    ∃ t, mapThumbnail (field author "gd$image") = .ok t ∧
      mapAuthor author
        = .ok { name := field (field author "name") "$t",
                email := field (field author "email") "$t", thumbnail := t } := by
  have ha : isNullish author = false := not_nullish_of_field (not_nullish_of_object hn)
  obtain ⟨t, ht⟩ := mapThumbnail_total (field author "gd$image")
  refine ⟨t, ht, ?_⟩
  simp only [mapAuthor, getProp_of_not_nullish author ha,
    getProp_of_not_nullish _ (not_nullish_of_object hn),
    getProp_of_not_nullish _ (not_nullish_of_object he), ht, bind, Except.bind, pure,
    Except.pure]

/-- An author that is mapped lacks neither `name` nor `email`. -/
theorem mapAuthor_ok_fields (author : JsVal) (r : Author) (h : mapAuthor author = .ok r) :
    lacks author "name" = false ∧ lacks author "email" = false := by
  simp only [mapAuthor, bind_ok, pure, Except.pure] at h
  obtain ⟨n, hn, _, hn', e, he, _, he', _⟩ := h
  constructor
  · rw [lacks, field_of_getProp hn]
    exact not_nullish_of_getProp hn'
  · rw [lacks, field_of_getProp he]
    exact not_nullish_of_getProp he'

theorem arrayMap_error {β : Type} (f : JsVal → Except JsError β)
    (hf : ∀ x e, f x = .error e → e = .typeError) (xs : List JsVal) :
    ∀ e, arrayMap f xs = .error e → e = .typeError := by
  induction xs with
  | nil => intro e h; cases h
  | cons x xs ih =>
    intro e h
    simp only [arrayMap] at h
    cases hx : f x with
    | error e0 =>
      rw [hx] at h
      cases h
      exact hf x _ hx
    | ok y =>
      rw [hx] at h
      cases hxs : arrayMap f xs with
      | error e1 =>
        rw [hxs] at h
        cases h
        exact ih _ hxs
      | ok ys =>
        rw [hxs] at h
        cases h

/-- The loop of `map` returns a list exactly when the callback returns on every element,
and then the list of what it returned, in order. -/
theorem arrayMap_ok_iff {β : Type} (f : JsVal → Except JsError β) (xs : List JsVal)
    (ys : List β) :
    arrayMap f xs = .ok ys ↔ List.Forall₂ (fun x y => f x = .ok y) xs ys := by
  induction xs generalizing ys with
  | nil =>
    simp only [arrayMap]
    constructor
    · intro h; cases h; exact List.Forall₂.nil
    · intro h; cases h; rfl
  | cons x xs ih =>
    simp only [arrayMap]
    constructor
    · intro h
      cases hx : f x with
      | error e0 => rw [hx] at h; cases h
      | ok y =>
        rw [hx] at h
        cases hxs : arrayMap f xs with
        | error e1 => rw [hxs] at h; cases h
        | ok ys0 =>
          rw [hxs] at h
          cases h
          exact List.Forall₂.cons hx ((ih ys0).1 hxs)
    · intro h
      cases h with
      | cons hx hrest =>
        rw [hx]
        simp only
        rw [(ih _).2 hrest]

theorem arrayMap_total {β : Type} (f : JsVal → Except JsError β) (xs : List JsVal)
    (h : ∀ x ∈ xs, ∃ y, f x = .ok y) : ∃ ys, arrayMap f xs = .ok ys := by
  induction xs with
  | nil => exact ⟨[], rfl⟩
  | cons x xs ih =>
    obtain ⟨y, hy⟩ := h x (List.mem_cons_self _ _)
    obtain ⟨ys, hys⟩ := ih fun z hz => h z (List.mem_cons_of_mem _ hz)
    exact ⟨y :: ys, by simp only [arrayMap, hy, hys]⟩

theorem arrayMap_ok_mem {β : Type} (f : JsVal → Except JsError β) (xs : List JsVal)
    (ys : List β) (h : arrayMap f xs = .ok ys) : ∀ x ∈ xs, ∃ y, f x = .ok y := by
  intro x hx
  have h2 := (arrayMap_ok_iff f xs ys).1 h
  induction h2 with
  | nil => cases hx
  | cons hab _ ih =>
    rcases List.mem_cons.1 hx with rfl | hmem
    · exact ⟨_, hab⟩
    · exact ih ((arrayMap_ok_iff f _ _).2 (by assumption)) hmem

theorem callMap_error {β : Type} (f : JsVal → Except JsError β)
    (hf : ∀ x e, f x = .error e → e = .typeError) (v : JsVal) :
    ∀ e, v.callMap f = .error e → e = .typeError := by
  intro e h
  cases v <;> simp only [callMap] at h <;>
    first
    | exact arrayMap_error f hf _ e h
    | (cases h; rfl)

theorem callMap_ok {β : Type} (f : JsVal → Except JsError β) (v : JsVal) (ys : List β)
    (h : v.callMap f = .ok ys) : ∃ xs, v = .arr xs ∧ arrayMap f xs = .ok ys := by
  cases v <;> simp only [callMap] at h <;>
    first
    | exact ⟨_, rfl, h⟩
    | cases h

theorem mapPost_error (post : JsVal) : ∀ e, mapPost post = .error e → e = .typeError := by
  unfold mapPost
  refine typeError_bind _ _ (getProp_error _ _) fun a => ?_
  refine typeError_bind _ _ (getIndex_error _ _) fun a => ?_
  refine typeError_bind _ _ (getProp_error _ _) fun a => ?_
  refine typeError_bind _ _ (getProp_error _ _) fun a => ?_
  refine typeError_bind _ _ (getProp_error _ _) fun a => ?_
  refine typeError_bind _ _ (getProp_error _ _) fun a => ?_
  refine typeError_bind _ _ (callMap_error _ mapAuthor_error _) fun a => ?_
  refine typeError_bind _ _ (optionalText_error _ _) fun a => ?_
  refine typeError_bind _ _ (optionalText_error _ _) fun a => ?_
  refine typeError_bind _ _ (getProp_error _ _) fun a => ?_
  refine typeError_bind _ _ (getProp_error _ _) fun a => ?_
  refine typeError_bind _ _ (getProp_error _ _) fun a => ?_
  refine typeError_bind _ _ (getProp_error _ _) fun a => ?_
  refine typeError_bind _ _ (getProp_error _ _) fun a => ?_
  refine typeError_bind _ _ (mapThumbnail_error _) fun a => ?_
  intro e h
  cases h

theorem mapPosts_error (posts : JsVal) :
    ∀ e, mapPosts posts = .error e → e = .typeError :=
  callMap_error _ mapPost_error posts

/-- An entry that `mapPost` maps is not malformed. -/
theorem mapPost_ok_not_malformed (entry : JsVal) (r : Post) (h : mapPost entry = .ok r) :
    isMalformedEntry entry = false := by
  simp only [mapPost, bind_ok, pure, Except.pure] at h
  obtain ⟨l, hl, l2, hl2, _, hhref, t, ht, _, ht', a, ha, as, has, _, _, _, _,
    u, hu, _, hu', p, hp, _, hp', _⟩ := h
  have hlacks : ∀ (key : String) (w x : JsVal), entry.getProp key = .ok w →
      w.getProp "$t" = .ok x → lacks entry key = false := by
    intro key w x h1 h2
    rw [lacks, field_of_getProp h1]
    exact not_nullish_of_getProp h2
  obtain ⟨authors, rfl, hmap⟩ := callMap_ok _ _ _ has
  have hauth : authorList entry = some authors := by
    simp only [authorList, field_of_getProp ha]
  have hany : (authors.any fun a => lacks a "name" || lacks a "email") = false := by
    rw [List.any_eq_false]
    intro x hx
    obtain ⟨y, hy⟩ := arrayMap_ok_mem _ _ _ hmap x hx
    have := mapAuthor_ok_fields x y hy
    simp [this.1, this.2]
  have hlink : (match linkList entry with
      | some links => decide (links.length < 3)
      | none => false) = false := by
    have hl2n := not_nullish_of_getProp hhref
    have hln := not_nullish_of_getIndex hl2
    simp only [linkList, field_of_getProp hl]
    cases l <;> first | rfl | (simp [isNullish] at hln)
    rename_i links
    simp only [getIndex] at hl2
    cases hl2
    simp only [decide_eq_false_iff_not, not_lt]
    by_contra hlt
    rw [List.getD_eq_default _ _ (by omega)] at hl2n
    simp [isNullish] at hl2n
  simp only [isMalformedEntry, hlacks _ _ _ ht ht', hlacks _ _ _ hu hu', hlacks _ _ _ hp hp',
    hauth, hany, hlink, Bool.or_self]

/-- A malformed entry makes `mapPost` throw. -/
theorem mapPost_malformed (entry : JsVal) (h : isMalformedEntry entry = true) :
    mapPost entry = .error .typeError := by
  cases hm : mapPost entry with
  | ok r =>
    rw [mapPost_ok_not_malformed entry r hm] at h
    cases h
  | error e => rw [mapPost_error entry e hm]

/-- C9: the mapping fails as a whole.  When the parsed response lacks the path
`feed.entry`, `map` throws; when one entry of the list is malformed (it lacks `title`,
`updated`, `published` or the author list, one of its authors lacks `name` or `email`, or
it has fewer than three links), `mapPosts` throws, and so does `map` on a response with
these entries: no list of posts is returned, not even for the other entries. -/
theorem mapping_fails_whole (parse : String → Except JsError JsVal) (response : String)
    (data : JsVal) (entries : List JsVal) (hparse : parse response = .ok data) :
    (lacksEntryPath data = true → map parse response = .error .typeError) ∧
    ((∃ e ∈ entries, isMalformedEntry e = true) →
      mapPosts (.arr entries) = .error .typeError ∧
      (field (field data "feed") "entry" = .arr entries →
        map parse response = .error .typeError)) := by
  have hmapErr : ∀ e, map parse response = .error e → e = .typeError := by
    unfold map
    refine typeError_bind _ _ ?_ fun a => ?_
    · intro e h
      rw [hparse] at h
      cases h
    refine typeError_bind _ _ (getProp_error _ _) fun a => ?_
    refine typeError_bind _ _ (getProp_error _ _) fun a => ?_
    exact mapPosts_error _
  have hposts : (∃ e ∈ entries, isMalformedEntry e = true) →
      mapPosts (.arr entries) = .error .typeError := by
    rintro ⟨e, he, hbad⟩
    cases hm : mapPosts (.arr entries) with
    | error err => rw [mapPosts_error _ err hm]
    | ok ps =>
      obtain ⟨y, hy⟩ := arrayMap_ok_mem mapPost entries ps hm e he
      rw [mapPost_malformed e hbad] at hy
      cases hy
  constructor
  · intro hlack
    cases hm : map parse response with
    | error err => rw [hmapErr err hm]
    | ok ps =>
      simp only [map, bind_ok, hparse] at hm
      obtain ⟨d, hd, f, hf, en, hen, hps⟩ := hm
      cases hd
      obtain ⟨xs, hxs, _⟩ := callMap_ok _ _ _ hps
      have h1 : isNullish data = false := not_nullish_of_getProp hf
      have h2 : lacks data "feed" = false := by
        rw [lacks, field_of_getProp hf]
        exact not_nullish_of_getProp hen
      have h3 : lacks (field data "feed") "entry" = false := by
        rw [field_of_getProp hf, lacks, field_of_getProp hen, hxs]
        rfl
      simp [lacksEntryPath, h1, h2, h3] at hlack
  · intro hbad
    refine ⟨hposts hbad, fun hentries => ?_⟩
    cases hm : map parse response with
    | error err => rw [hmapErr err hm]
    | ok ps =>
      simp only [map, bind_ok, hparse] at hm
      obtain ⟨d, hd, f, hf, en, hen, hps⟩ := hm
      cases hd
      rw [field_of_getProp hf, field_of_getProp hen] at hentries
      rw [hentries, hposts hbad] at hps
      cases hps

/-- C9 (instance): a page whose first entry is mapped on its own and whose second entry
has two links yields no posts; neither does a response without `feed`. -/
theorem mapping_fails_whole_witness :
    mapPost sampleEntry = .ok samplePost ∧
    mapPosts (.arr [sampleEntry, sampleEntryTwoLinks]) = .error .typeError ∧
    map sampleParse "bad" = .error .typeError ∧
    map sampleParse "empty" = .error .typeError :=
  ⟨rfl,
   ((mapping_fails_whole sampleParse "bad" (feedOf [sampleEntry, sampleEntryTwoLinks])
      [sampleEntry, sampleEntryTwoLinks] rfl).2
      ⟨sampleEntryTwoLinks, List.mem_cons_of_mem _ (List.mem_cons_self _ _), rfl⟩).1,
   ((mapping_fails_whole sampleParse "bad" (feedOf [sampleEntry, sampleEntryTwoLinks])
      [sampleEntry, sampleEntryTwoLinks] rfl).2
      ⟨sampleEntryTwoLinks, List.mem_cons_of_mem _ (List.mem_cons_self _ _), rfl⟩).2 rfl,
   (mapping_fails_whole sampleParse "empty" (.obj []) [] rfl).1 rfl⟩

/-- C10: a well-formed entry is mapped, and the post has as `link` the `href` of the link
at index 2 of the link list, as `title`, `updated` and `published` the `$t` of the
corresponding wrappers, as `authors` what `mapAuthors` makes of the author list and as
`thumbnail` what `mapThumbnail` makes of `media$thumbnail`. -/
theorem mapPost_wellFormed (entry : JsVal) (h : isWellFormedEntry entry = true) :
    ∃ (links authors : List JsVal) (post : Post),
      entry.getProp "link" = .ok (.arr links) ∧ 3 ≤ links.length ∧
      entry.getProp "author" = .ok (.arr authors) ∧
      mapPost entry = .ok post ∧
      (links.getD 2 .undefined).getProp "href" = .ok post.link ∧
      (field entry "title").getProp "$t" = .ok post.title ∧
      (field entry "updated").getProp "$t" = .ok post.updated ∧
      (field entry "published").getProp "$t" = .ok post.published ∧
      mapAuthors (.arr authors) = .ok post.authors ∧
      mapThumbnail (field entry "media$thumbnail") = .ok post.thumbnail := by
  simp only [isWellFormedEntry, Bool.and_eq_true] at h
  obtain ⟨⟨⟨⟨hl, ht⟩, hu⟩, hp⟩, ha⟩ := h
  have he : isNullish entry = false := not_nullish_of_field (not_nullish_of_object ht)
  cases hlk : field entry "link" with
  | arr links =>
    rw [hlk] at hl
    simp only [Bool.and_eq_true, decide_eq_true_eq] at hl
    simp only [authorList] at ha
    cases hau : field entry "author" with
    | arr authors =>
      rw [hau] at ha
      simp only [List.all_eq_true, Bool.and_eq_true] at ha
      obtain ⟨as, has⟩ := arrayMap_total mapAuthor authors fun a hmem =>
        let ⟨t, _, hmap⟩ := mapAuthor_ok a (ha a hmem).1 (ha a hmem).2
        ⟨_, hmap⟩
      obtain ⟨s, hs⟩ := optionalText_total entry he "summary"
      obtain ⟨c, hc⟩ := optionalText_total entry he "content"
      obtain ⟨th, hth⟩ := mapThumbnail_total (field entry "media$thumbnail")
      have hl2 := not_nullish_of_object hl.2
      refine ⟨links, authors,
        { link := field (links.getD 2 .undefined) "href"
          title := field (field entry "title") "$t"
          authors := as
          summary := s
          content := c
          updated := field (field entry "updated") "$t"
          published := field (field entry "published") "$t"
          thumbnail := th }, ?_, hl.1, ?_, ?_, ?_, ?_, ?_, ?_, ?_, hth⟩
      · rw [getProp_of_not_nullish entry he, hlk]
      · rw [getProp_of_not_nullish entry he, hau]
      · simp only [mapPost, getProp_of_not_nullish entry he, hlk, hau, getIndex,
          getProp_of_not_nullish _ hl2, getProp_of_not_nullish _ (not_nullish_of_object ht),
          getProp_of_not_nullish _ (not_nullish_of_object hu),
          getProp_of_not_nullish _ (not_nullish_of_object hp), mapAuthors, callMap, has, hs,
          hc, hth, bind, Except.bind, pure, Except.pure]
      · exact getProp_of_not_nullish _ hl2 _
      · exact getProp_of_not_nullish _ (not_nullish_of_object ht) _
      · exact getProp_of_not_nullish _ (not_nullish_of_object hu) _
      · exact getProp_of_not_nullish _ (not_nullish_of_object hp) _
      · exact has
    | _ => rw [hau] at ha; cases ha
  | _ => rw [hlk] at hl; cases hl

/-- C10 (instance): the sample entry, whose three links differ, is mapped to the post whose
link is the `href` of the third. -/
theorem mapPost_wellFormed_witness :
    ∃ (links authors : List JsVal) (post : Post),
      sampleEntry.getProp "link" = .ok (.arr links) ∧ 3 ≤ links.length ∧
      sampleEntry.getProp "author" = .ok (.arr authors) ∧
      mapPost sampleEntry = .ok post ∧
      (links.getD 2 .undefined).getProp "href" = .ok post.link ∧
      (field sampleEntry "title").getProp "$t" = .ok post.title ∧
      (field sampleEntry "updated").getProp "$t" = .ok post.updated ∧
      (field sampleEntry "published").getProp "$t" = .ok post.published ∧
      mapAuthors (.arr authors) = .ok post.authors ∧
      mapThumbnail (field sampleEntry "media$thumbnail") = .ok post.thumbnail :=
  mapPost_wellFormed sampleEntry rfl

end Kanako

namespace Kanako

/-! ## Occurrences of a text in a concatenation -/

/-- An occurrence in `x ++ y` lies in `x`, lies in `y`, or is split by the seam. -/
theorem infix_append_cases {α : Type} {r x y : List α} (h : r <:+: x ++ y) :
    r <:+: x ∨ r <:+: y ∨
      ∃ r1 r2, r1 ≠ [] ∧ r2 ≠ [] ∧ r = r1 ++ r2 ∧ r1 <:+ x ∧ r2 <+: y := by
  obtain ⟨s, t, hst⟩ := h
  rcases List.append_eq_append_iff.1 hst with ⟨a, hx, ht⟩ | ⟨c, hsr, hy⟩
  · exact Or.inl ⟨s, a, hx.symm⟩
  · rcases List.append_eq_append_iff.1 hsr with ⟨a, hx, hr⟩ | ⟨c2, hs, hc⟩
    · by_cases ha : a = []
      · subst ha
        right; left
        exact ⟨[], t, by simp [hy, hr]⟩
      · by_cases hc0 : c = []
        · subst hc0
          left
          exact ⟨s, [], by simp [hx, hr]⟩
        · right; right
          exact ⟨a, c, ha, hc0, hr, ⟨s, hx.symm⟩, ⟨t, hy.symm⟩⟩
    · right; left
      exact ⟨c2, t, by simp [hy, hc]⟩

/-- A text without the character `c` does not straddle an occurrence of `c`. -/
theorem infix_split_at {α : Type} {r a b : List α} {c : α} (hc : c ∉ r)
    (h : r <:+: a ++ c :: b) : r <:+: a ∨ r <:+: b := by
  rcases infix_append_cases h with h1 | h2 | ⟨r1, r2, _, h2ne, hr, _, hpre⟩
  · exact Or.inl h1
  · rcases List.infix_cons_iff.1 h2 with hp | hb
    · cases r with
      | nil => exact Or.inl List.nil_infix
      | cons d r' =>
        obtain ⟨t, ht⟩ := hp
        injection ht with hd _
        exact absurd (hd ▸ List.mem_cons_self _ _) hc
    · exact Or.inr hb
  · cases r2 with
    | nil => exact absurd rfl h2ne
    | cons d r2' =>
      obtain ⟨t, ht⟩ := hpre
      injection ht with hd _
      subst hd
      exact absurd (hr ▸ List.mem_append_right _ (List.mem_cons_self _ _)) hc

/-- A text that ends in `c` does not reach into a part without `c`. -/
theorem infix_before {α : Type} {n a b : List α} {c : α} (hb : c ∉ b)
    (h : n ++ [c] <:+: a ++ b) : n ++ [c] <:+: a := by
  rcases infix_append_cases h with h1 | h2 | ⟨r1, r2, _, h2ne, hr, _, hpre⟩
  · exact h1
  · exact absurd (h2.subset (List.mem_append_right _ (List.mem_singleton_self c))) hb
  · exfalso
    apply hb
    have hlast : c ∈ r2 := by
      rcases List.eq_nil_or_concat r2 with h0 | ⟨r2', d, hd⟩
      · exact absurd h0 h2ne
      · subst hd
        have : n ++ [c] = (r1 ++ r2') ++ [d] := by simp [hr]
        have hcd := List.append_inj_right' this rfl
        injection hcd with hcd _
        subst hcd
        simp
    exact hpre.subset hlast

/-- A text whose only `c` is its last character occurs around a `c` only up to it or
after it. -/
theorem infix_around {α : Type} {n a v : List α} {c : α} (hn : c ∉ n)
    (h : n ++ [c] <:+: a ++ c :: v) : n ++ [c] <:+: a ++ [c] ∨ n ++ [c] <:+: v := by
  have h' : n ++ [c] <:+: (a ++ [c]) ++ v := by simpa using h
  rcases infix_append_cases h' with h1 | h2 | ⟨r1, r2, h1ne, h2ne, hr, hsuf, _⟩
  · exact Or.inl h1
  · exact Or.inr h2
  · exfalso
    apply hn
    -- `r1` ends in `c` and is followed by the non-empty `r2`, so `c` is in `n`
    rcases List.eq_nil_or_concat r1 with h0 | ⟨r1', d, hd⟩
    · exact absurd h0 h1ne
    · subst hd
      obtain ⟨s, hs⟩ := hsuf
      have hs' : (s ++ r1') ++ [d] = a ++ [c] := by simpa using hs
      have hdc := List.append_inj_right' hs' rfl
      injection hdc with hdc _
      rw [hdc] at hr
      rcases List.eq_nil_or_concat r2 with h0 | ⟨r2', e, he⟩
      · exact absurd h0 h2ne
      · subst he
        have : n ++ [c] = (r1' ++ [c] ++ r2') ++ [e] := by simp [hr]
        have hn' := List.append_inj_left' this rfl
        rw [hn']
        simp

end Kanako

namespace Kanako

/-! ## The characters of rendered numbers and of encoded texts -/

theorem isUnreserved_digitChar (m : Nat) : isUnreserved (Nat.digitChar m) = true := by
  by_cases h : m < 16
  · interval_cases m <;> decide
  · have hstar : Nat.digitChar m = '*' := by
      unfold Nat.digitChar
      repeat rw [if_neg (by omega)]
    rw [hstar]
    decide

theorem toDigitsCore_unreserved (fuel : Nat) :
    ∀ (n : Nat) (ds : List Char), (∀ c ∈ ds, isUnreserved c = true) →
      ∀ c ∈ Nat.toDigitsCore 10 fuel n ds, isUnreserved c = true := by
  induction fuel with
  | zero => intro n ds hds c hc; exact hds c hc
  | succ fuel ih =>
    intro n ds hds c hc
    have hcons : ∀ c ∈ Nat.digitChar (n % 10) :: ds, isUnreserved c = true := by
      intro c hc
      rcases List.mem_cons.1 hc with rfl | hc
      · exact isUnreserved_digitChar _
      · exact hds c hc
    simp only [Nat.toDigitsCore] at hc
    split_ifs at hc
    · exact hcons c hc
    · exact ih _ _ hcons c hc

theorem natRepr_unreserved (n : Nat) : ∀ c ∈ (toString n).data, isUnreserved c = true := by
  intro c hc
  have : (toString n).data = Nat.toDigits 10 n := rfl
  rw [this] at hc
  exact toDigitsCore_unreserved _ _ _ (fun _ h => absurd h (List.not_mem_nil _)) c hc

/-- The decimal rendering of a number consists of digits and at most a sign, all of which
are unreserved characters. -/
theorem numberToString_unreserved (n : Int) :
    ∀ c ∈ (numberToString n).data, isUnreserved c = true := by
  intro c hc
  cases n with
  | ofNat m => exact natRepr_unreserved m c hc
  | negSucc m =>
    have : (numberToString (Int.negSucc m)).data = '-' :: (toString (m + 1)).data := rfl
    rw [this] at hc
    rcases List.mem_cons.1 hc with rfl | hc
    · decide
    · exact natRepr_unreserved _ c hc

theorem isUnreserved_hexDigit (n : Nat) (h : n < 16) : isUnreserved (hexDigit n) = true := by
  interval_cases n <;> decide

theorem utf8Octets_lt (n : Nat) (h : n < 1114112) : ∀ b ∈ utf8Octets n, b < 256 := by
  intro b hb
  unfold utf8Octets at hb
  split_ifs at hb <;> simp only [List.mem_cons, List.mem_singleton, List.not_mem_nil,
    or_false] at hb <;> omega

/-- An octet is escaped by `%` and two unreserved characters. -/
theorem percentEscape_chars (b : Nat) (h : b < 256) :
    ∀ c ∈ percentEscape b, isUnreserved c = true ∨ c = '%' := by
  intro c hc
  simp only [percentEscape, List.mem_cons, List.mem_singleton, List.not_mem_nil,
    or_false] at hc
  rcases hc with rfl | rfl | rfl
  · exact Or.inr rfl
  · exact Or.inl (isUnreserved_hexDigit _ (by omega))
  · exact Or.inl (isUnreserved_hexDigit _ (by omega))

theorem escapeOctets_chars (bs : List Nat) (h : ∀ b ∈ bs, b < 256) :
    ∀ c ∈ escapeOctets bs, isUnreserved c = true ∨ c = '%' := by
  induction bs with
  | nil => intro c hc; cases hc
  | cons b bs ih =>
    intro c hc
    simp only [escapeOctets, List.mem_append] at hc
    rcases hc with hc | hc
    · exact percentEscape_chars b (h b (List.mem_cons_self _ _)) c hc
    · exact ih (fun x hx => h x (List.mem_cons_of_mem _ hx)) c hc

theorem char_toNat_lt (c : Char) : c.toNat < 1114112 := by
  have h := c.valid
  simp only [UInt32.isValidChar, Nat.isValidChar] at h
  have : c.toNat = c.val.toNat := rfl
  omega

theorem encodeChars_chars (cs : List Char) :
    ∀ c ∈ encodeChars cs, isUnreserved c = true ∨ c = '%' := by
  induction cs with
  | nil => intro c hc; cases hc
  | cons d cs ih =>
    intro c hc
    simp only [encodeChars, List.mem_append] at hc
    rcases hc with hc | hc
    · unfold encodeChar at hc
      split_ifs at hc with hd
      · rw [List.mem_singleton.1 hc]
        exact Or.inl hd
      · exact escapeOctets_chars _ (utf8Octets_lt _ (char_toNat_lt d)) c hc
    · exact ih c hc

/-- The value `encodeURIComponent` returns consists of unreserved characters and `%`. -/
theorem encodeURIComponent_chars (s : String) :
    ∀ c ∈ (encodeURIComponent s).data, isUnreserved c = true ∨ c = '%' :=
  encodeChars_chars s.data

end Kanako

namespace Kanako

/-! ## Parameters that are absent -/

theorem segment_data (name : String) (v : Option String) :
    (segment name v).data
      = match v with
        | none => []
        | some x => '&' :: (name.data ++ '=' :: x.data) := by
  cases v
  · rfl
  · simp [segment]

/-- An occurrence of a text without `&` in a head followed by segments lies in the head or
in the `name=value` of one segment. -/
theorem infix_segments (r : List Char) (hamp : '&' ∉ r) (ps : List (String × Option String)) :
    ∀ head : List Char,
      r <:+: head ++ (String.join (ps.map fun p => segment p.1 p.2)).data →
      r <:+: head ∨ ∃ p ∈ ps, ∃ v, p.2 = some v ∧ r <:+: p.1.data ++ '=' :: v.data := by
  induction ps with
  | nil =>
    intro head h
    left
    simpa [String.join] using h
  | cons p ps ih =>
    intro head h
    have hjoin : (String.join ((p :: ps).map fun p => segment p.1 p.2)).data
        = (segment p.1 p.2).data ++ (String.join (ps.map fun p => segment p.1 p.2)).data := by
      simp [String.data_join]
    rw [hjoin, segment_data] at h
    cases hv : p.2 with
    | none =>
      rw [hv] at h
      rcases ih head (by simpa using h) with h1 | ⟨q, hq, v, hqv, hr⟩
      · exact Or.inl h1
      · exact Or.inr ⟨q, List.mem_cons_of_mem _ hq, v, hqv, hr⟩
    | some x =>
      rw [hv] at h
      have h' : r <:+: head ++ '&' ::
          ((p.1.data ++ '=' :: x.data)
            ++ (String.join (ps.map fun p => segment p.1 p.2)).data) := by
        simpa using h
      rcases infix_split_at hamp h' with h1 | h2
      · exact Or.inl h1
      · rcases ih _ h2 with h3 | ⟨q, hq, v, hqv, hr⟩
        · exact Or.inr ⟨p, List.mem_cons_self _ _, x, hv, h3⟩
        · exact Or.inr ⟨q, List.mem_cons_of_mem _ hq, v, hqv, hr⟩

/-- An occurrence of `name=` in the head of a URL lies in the base URL or in the content
mode, unless it lies in `alt=json`. -/
theorem infix_head (self : Kanako) (n : List Char) (hslash : '/' ∉ n ++ ['='])
    (hquest : '?' ∉ n ++ ['=']) (h : n ++ ['='] <:+: (urlHead self).data) :
    n ++ ['='] <:+: self.blogUrl.data ∨ n ++ ['='] <:+: self.contentMode.data ∨
      n ++ ['='] <:+: "alt=json".data := by
  have hd : (urlHead self).data
      = (self.blogUrl.data ++ "feeds".data) ++ '/' ::
          ("posts".data ++ '/' :: (self.contentMode.data ++ '?' :: "alt=json".data)) := by
    simp only [urlHead, String.data_append, List.append_assoc]
    rfl
  rw [hd] at h
  rcases infix_split_at hslash h with h1 | h2
  · exact Or.inl (infix_before (by decide) h1)
  · rcases infix_split_at hslash h2 with h3 | h4
    · exact absurd (h3.subset (List.mem_append_right _ (List.mem_singleton_self _)))
        (by decide)
    · rcases infix_split_at hquest h4 with h5 | h6
      · exact Or.inr (Or.inl h5)
      · exact Or.inr (Or.inr h6)

/-- No value that is rendered from a number or URL-encoded includes a text with `=`; the
other values are fields that reach the URL as they are. -/
theorem values_free (self : Kanako) (text : String) (heq : '=' ∈ text.data)
    (hfree : verbatimFree self text) :
    ∀ p ∈ parameters self, ∀ v, p.2 = some v → ¬ text.data <:+: v.data := by
  have hnum : ∀ (k : Int) (v : String), presentNumber k = some v → ¬ text.data <:+: v.data := by
    intro k v hv hin
    unfold presentNumber at hv
    split_ifs at hv
    cases hv
    have := numberToString_unreserved k '=' (hin.subset heq)
    exact absurd this (by decide)
  have hbound : ∀ (f : Option String) (v : String), f ∈ [self.updatedMin, self.updatedMax,
      self.publishedMin, self.publishedMax] → presentString f = some v →
      ¬ text.data <:+: v.data := by
    intro f v hf hv
    apply hfree v
    unfold verbatimFields
    refine List.mem_cons_of_mem _ (List.mem_cons_of_mem _ ?_)
    exact List.mem_filterMap.2 ⟨f, hf, hv⟩
  intro p hp v hv
  simp only [parameters, List.mem_cons, List.mem_singleton, List.not_mem_nil, or_false] at hp
  rcases hp with rfl | rfl | rfl | rfl | rfl | rfl | rfl
  · exact hnum _ _ hv
  · exact hnum _ _ hv
  · intro hin
    simp only [Option.map_eq_some'] at hv
    obtain ⟨q, _, hq⟩ := hv
    subst hq
    rcases encodeURIComponent_chars q '=' (hin.subset heq) with h | h
    · exact absurd h (by decide)
    · exact absurd h (by decide)
  · exact hbound _ _ (by simp) hv
  · exact hbound _ _ (by simp) hv
  · exact hbound _ _ (by simp) hv
  · exact hbound _ _ (by simp) hv

/-- The text `name=` does not occur in the request URL when no segment that is present
has a name that includes it, no field that reaches the URL as it is includes it, and it is
not part of `alt=json`. -/
theorem not_includes_name (self : Kanako) (name : String)
    (hamp : '&' ∉ name.data ++ ['=']) (hslash : '/' ∉ name.data ++ ['='])
    (hquest : '?' ∉ name.data ++ ['=']) (heq : '=' ∉ name.data)
    (halt : ¬ name.data ++ ['='] <:+: "alt=json".data)
    (hnames : ∀ p ∈ parameters self, ∀ v, p.2 = some v →
      ¬ name.data ++ ['='] <:+: p.1.data ++ ['='])
    (hfree : verbatimFree self (name ++ "=")) :
    ¬ includes (buildRequestUrl self) (name ++ "=") := by
  intro h
  have hdata : (name ++ "=").data = name.data ++ ['='] := rfl
  unfold includes at h
  rw [hdata, buildRequestUrl_segments, specRequestUrl, String.data_append] at h
  rcases infix_segments _ hamp _ _ h with h1 | ⟨p, hp, v, hv, hr⟩
  · rcases infix_head self _ hslash hquest h1 with h2 | h3 | h4
    · exact hfree self.blogUrl (List.mem_cons_self _ _) (by rw [includes, hdata]; exact h2)
    · exact hfree self.contentMode (List.mem_cons_of_mem _ (List.mem_cons_self _ _))
        (by rw [includes, hdata]; exact h3)
    · exact halt h4
  · rcases infix_around heq hr with h5 | h6
    · exact hnames p hp v hv h5
    · exact values_free self (name ++ "=") (by rw [hdata]; simp) hfree p hp v hv
        (by rw [hdata]; exact h6)

theorem presentString_absent (f : Option String) (h : f = none ∨ f = some "") :
    presentString f = none := by
  rcases h with rfl | rfl <;> rfl

/-- The pattern of the proofs below: the parameter called `name` is absent, and `name=`
occurs in no other parameter name. -/
theorem names_free (self : Kanako) (name : String)
    (hother : ∀ p ∈ parameters self, p.1 = name ∨ ¬ name.data ++ ['='] <:+: p.1.data ++ ['='])
    (habsent : ∀ p ∈ parameters self, p.1 = name → p.2 = none) :
    ∀ p ∈ parameters self, ∀ v, p.2 = some v →
      ¬ name.data ++ ['='] <:+: p.1.data ++ ['='] := by
  intro p hp v hv
  rcases hother p hp with h | h
  · rw [habsent p hp h] at hv
    cases hv
  · exact h

theorem startsWith_head (self : Kanako) : startsWith (buildRequestUrl self) (urlHead self) := by
  unfold startsWith
  rw [buildRequestUrl_segments, specRequestUrl, String.data_append]
  exact List.prefix_append _ _

set_option maxRecDepth 4000 in
/-- C2 (amended): the request URL begins with the head, and the text `name=` of a parameter
whose field is absent, zero or empty does not occur in it, provided it occurs in none of
the fields that reach the URL as they are (base URL, content mode, the timestamp bounds
that are present). -/
theorem absent_parameter_not_included (self : Kanako) :
    startsWith (buildRequestUrl self) (urlHead self) ∧
    (self.startIndex = 0 → verbatimFree self "start-index=" →
      ¬ includes (buildRequestUrl self) "start-index=") ∧
    (self.maxResults = 0 → verbatimFree self "max-results=" →
      ¬ includes (buildRequestUrl self) "max-results=") ∧
    (self.searchQuery = none ∨ self.searchQuery = some "" → verbatimFree self "q=" →
      ¬ includes (buildRequestUrl self) "q=") ∧
    (self.updatedMin = none ∨ self.updatedMin = some "" → verbatimFree self "updated-min=" →
      ¬ includes (buildRequestUrl self) "updated-min=") ∧
    (self.updatedMax = none ∨ self.updatedMax = some "" → verbatimFree self "updated-max=" →
      ¬ includes (buildRequestUrl self) "updated-max=") ∧
    (self.publishedMin = none ∨ self.publishedMin = some "" →
      verbatimFree self "published-min=" →
      ¬ includes (buildRequestUrl self) "published-min=") ∧
    (self.publishedMax = none ∨ self.publishedMax = some "" →
      verbatimFree self "published-max=" →
      ¬ includes (buildRequestUrl self) "published-max=") := by
  refine ⟨startsWith_head self, ?_, ?_, ?_, ?_, ?_, ?_, ?_⟩
  · intro h0 hfree
    refine not_includes_name self "start-index" (by decide) (by decide) (by decide)
      (by decide) (by decide) (names_free self _ ?_ ?_) hfree
    · intro p hp
      simp only [parameters, List.mem_cons, List.mem_singleton, List.not_mem_nil,
        or_false] at hp
      rcases hp with rfl | rfl | rfl | rfl | rfl | rfl | rfl <;> dsimp only <;>
        first | exact Or.inl rfl | exact Or.inr (by decide)
    · intro p hp
      simp only [parameters, List.mem_cons, List.mem_singleton, List.not_mem_nil,
        or_false] at hp
      rcases hp with rfl | rfl | rfl | rfl | rfl | rfl | rfl <;> dsimp only <;> intro hn <;>
        first
        | exact absurd hn (by decide)
        | (rw [h0]; rfl)
  · intro h0 hfree
    refine not_includes_name self "max-results" (by decide) (by decide) (by decide)
      (by decide) (by decide) (names_free self _ ?_ ?_) hfree
    · intro p hp
      simp only [parameters, List.mem_cons, List.mem_singleton, List.not_mem_nil,
        or_false] at hp
      rcases hp with rfl | rfl | rfl | rfl | rfl | rfl | rfl <;> dsimp only <;>
        first | exact Or.inl rfl | exact Or.inr (by decide)
    · intro p hp
      simp only [parameters, List.mem_cons, List.mem_singleton, List.not_mem_nil,
        or_false] at hp
      rcases hp with rfl | rfl | rfl | rfl | rfl | rfl | rfl <;> dsimp only <;> intro hn <;>
        first
        | exact absurd hn (by decide)
        | (rw [h0]; rfl)
  · intro h0 hfree
    refine not_includes_name self "q" (by decide) (by decide) (by decide)
      (by decide) (by decide) (names_free self _ ?_ ?_) hfree
    · intro p hp
      simp only [parameters, List.mem_cons, List.mem_singleton, List.not_mem_nil,
        or_false] at hp
      rcases hp with rfl | rfl | rfl | rfl | rfl | rfl | rfl <;> dsimp only <;>
        first | exact Or.inl rfl | exact Or.inr (by decide)
    · intro p hp
      simp only [parameters, List.mem_cons, List.mem_singleton, List.not_mem_nil,
        or_false] at hp
      rcases hp with rfl | rfl | rfl | rfl | rfl | rfl | rfl <;> dsimp only <;> intro hn <;>
        first
        | exact absurd hn (by decide)
        | (rw [presentString_absent _ h0]; rfl)
  · intro h0 hfree
    refine not_includes_name self "updated-min" (by decide) (by decide) (by decide)
      (by decide) (by decide) (names_free self _ ?_ ?_) hfree
    · intro p hp
      simp only [parameters, List.mem_cons, List.mem_singleton, List.not_mem_nil,
        or_false] at hp
      rcases hp with rfl | rfl | rfl | rfl | rfl | rfl | rfl <;> dsimp only <;>
        first | exact Or.inl rfl | exact Or.inr (by decide)
    · intro p hp
      simp only [parameters, List.mem_cons, List.mem_singleton, List.not_mem_nil,
        or_false] at hp
      rcases hp with rfl | rfl | rfl | rfl | rfl | rfl | rfl <;> dsimp only <;> intro hn <;>
        first
        | exact absurd hn (by decide)
        | exact presentString_absent _ h0
  · intro h0 hfree
    refine not_includes_name self "updated-max" (by decide) (by decide) (by decide)
      (by decide) (by decide) (names_free self _ ?_ ?_) hfree
    · intro p hp
      simp only [parameters, List.mem_cons, List.mem_singleton, List.not_mem_nil,
        or_false] at hp
      rcases hp with rfl | rfl | rfl | rfl | rfl | rfl | rfl <;> dsimp only <;>
        first | exact Or.inl rfl | exact Or.inr (by decide)
    · intro p hp
      simp only [parameters, List.mem_cons, List.mem_singleton, List.not_mem_nil,
        or_false] at hp
      rcases hp with rfl | rfl | rfl | rfl | rfl | rfl | rfl <;> dsimp only <;> intro hn <;>
        first
        | exact absurd hn (by decide)
        | exact presentString_absent _ h0
  · intro h0 hfree
    refine not_includes_name self "published-min" (by decide) (by decide) (by decide)
      (by decide) (by decide) (names_free self _ ?_ ?_) hfree
    · intro p hp
      simp only [parameters, List.mem_cons, List.mem_singleton, List.not_mem_nil,
        or_false] at hp
      rcases hp with rfl | rfl | rfl | rfl | rfl | rfl | rfl <;> dsimp only <;>
        first | exact Or.inl rfl | exact Or.inr (by decide)
    · intro p hp
      simp only [parameters, List.mem_cons, List.mem_singleton, List.not_mem_nil,
        or_false] at hp
      rcases hp with rfl | rfl | rfl | rfl | rfl | rfl | rfl <;> dsimp only <;> intro hn <;>
        first
        | exact absurd hn (by decide)
        | exact presentString_absent _ h0
  · intro h0 hfree
    refine not_includes_name self "published-max" (by decide) (by decide) (by decide)
      (by decide) (by decide) (names_free self _ ?_ ?_) hfree
    · intro p hp
      simp only [parameters, List.mem_cons, List.mem_singleton, List.not_mem_nil,
        or_false] at hp
      rcases hp with rfl | rfl | rfl | rfl | rfl | rfl | rfl <;> dsimp only <;>
        first | exact Or.inl rfl | exact Or.inr (by decide)
    · intro p hp
      simp only [parameters, List.mem_cons, List.mem_singleton, List.not_mem_nil,
        or_false] at hp
      rcases hp with rfl | rfl | rfl | rfl | rfl | rfl | rfl <;> dsimp only <;> intro hn <;>
        first
        | exact absurd hn (by decide)
        | exact presentString_absent _ h0

set_option maxRecDepth 8000 in
/-- C2 (instance): with every optional field off the URL is the head alone and holds none
of the seven names; a search term that spells out `&max-results=9` is encoded and brings
no `max-results=` into the URL. -/
theorem absent_parameter_not_included_witness :
    (buildRequestUrl bareClient = "https://x.com/feeds/posts/default?alt=json" ∧
     ¬ includes (buildRequestUrl bareClient) "start-index=" ∧
     ¬ includes (buildRequestUrl bareClient) "max-results=" ∧
     ¬ includes (buildRequestUrl bareClient) "q=" ∧
     ¬ includes (buildRequestUrl bareClient) "updated-min=" ∧
     ¬ includes (buildRequestUrl bareClient) "updated-max=" ∧
     ¬ includes (buildRequestUrl bareClient) "published-min=" ∧
     ¬ includes (buildRequestUrl bareClient) "published-max=") ∧
    (buildRequestUrl searchingClient
      = "https://x.com/feeds/posts/default?alt=json&start-index=1&q=a%26max-results%3D9&updated-min=2020-01-01T00:00:00Z" ∧
     ¬ includes (buildRequestUrl searchingClient) "max-results=") :=
  ⟨⟨rfl,
    (absent_parameter_not_included bareClient).2.1 rfl (by decide),
    (absent_parameter_not_included bareClient).2.2.1 rfl (by decide),
    (absent_parameter_not_included bareClient).2.2.2.1 (Or.inl rfl) (by decide),
    (absent_parameter_not_included bareClient).2.2.2.2.1 (Or.inl rfl) (by decide),
    (absent_parameter_not_included bareClient).2.2.2.2.2.1 (Or.inl rfl) (by decide),
    (absent_parameter_not_included bareClient).2.2.2.2.2.2.1 (Or.inl rfl) (by decide),
    (absent_parameter_not_included bareClient).2.2.2.2.2.2.2 (Or.inl rfl) (by decide)⟩,
   ⟨rfl, (absent_parameter_not_included searchingClient).2.2.1 rfl (by decide)⟩⟩

/-- C2 (counterexample): with page size 0 and the update bound `2020&max-results=5` the
request URL ends in `&updated-min=2020&max-results=5`: it includes a `max-results=`
parameter although the page size is zero. -/
theorem absent_parameter_counterexample :
    injectingClient.maxResults = 0 ∧
    buildRequestUrl injectingClient
      = "https://x.com/feeds/posts/default?alt=json&start-index=1&updated-min=2020&max-results=5" ∧
    includes (buildRequestUrl injectingClient) "max-results=" ∧
    ¬ (∀ self : Kanako, self.maxResults = 0 →
        ¬ includes (buildRequestUrl self) "max-results=") :=
  have hinc : includes (buildRequestUrl injectingClient) "max-results=" :=
    ⟨"https://x.com/feeds/posts/default?alt=json&start-index=1&updated-min=2020&".data,
      "5".data, rfl⟩
  ⟨rfl, rfl, hinc, fun h => h injectingClient rfl hinc⟩

end Kanako

namespace Kanako
open JsVal

/-! ## Optional texts, thumbnails, lists -/

/-- On a value that is neither `undefined` nor `null` the conditional expression yields the
`$t` of a truthy field and `null` for a falsy one. -/
theorem optionalText_value (post : JsVal) (h : isNullish post = false) (key : String) :
    optionalText post key
      = .ok (if (field post key).toBoolean = true then field (field post key) "$t"
             else .null) := by
  simp only [optionalText, getProp_of_not_nullish post h, bind, Except.bind, pure, Except.pure]
  by_cases ht : (field post key).toBoolean = true
  · rw [if_pos ht, if_pos ht, getProp_of_not_nullish _ (not_nullish_of_truthy ht)]
  · rw [if_neg ht, if_neg ht]

/-- What a mapped post holds, read off the steps of `mapPost`. -/
theorem mapPost_ok_parts (entry : JsVal) (post : Post) (h : mapPost entry = .ok post) :
    isNullish entry = false ∧
    mapAuthors (field entry "author") = .ok post.authors ∧
    optionalText entry "summary" = .ok post.summary ∧
    optionalText entry "content" = .ok post.content ∧
    mapThumbnail (field entry "media$thumbnail") = .ok post.thumbnail := by
  simp only [mapPost, bind_ok, pure, Except.pure] at h
  obtain ⟨l, hl, l2, hl2, hr, hhref, t, ht, t', ht', a, ha, as, has, s, hs, c, hc,
    u, hu, u', hu', p, hp, p', hp', m, hm, th, hth, hpost⟩ := h
  cases hpost
  refine ⟨not_nullish_of_getProp hl, ?_, hs, hc, ?_⟩
  · rw [field_of_getProp ha]; exact has
  · rw [field_of_getProp hm]; exact hth

/-- A well-formed entry is mapped. -/
theorem mapPost_total (entry : JsVal) (h : isWellFormedEntry entry = true) :
    ∃ post, mapPost entry = .ok post := by
  cases hm : mapPost entry with
  | ok post => exact ⟨post, rfl⟩
  | error e =>
    exfalso
    simp only [isWellFormedEntry, Bool.and_eq_true] at h
    obtain ⟨⟨⟨⟨hl, ht⟩, hu⟩, hp⟩, ha⟩ := h
    have he : isNullish entry = false := not_nullish_of_field (not_nullish_of_object ht)
    cases hlk : field entry "link" with
    | arr links =>
      rw [hlk] at hl
      simp only [Bool.and_eq_true, decide_eq_true_eq] at hl
      simp only [authorList] at ha
      cases hau : field entry "author" with
      | arr authors =>
        rw [hau] at ha
        simp only [List.all_eq_true, Bool.and_eq_true] at ha
        obtain ⟨as, has⟩ := arrayMap_total mapAuthor authors fun a hmem =>
          let ⟨t, _, hmap⟩ := mapAuthor_ok a (ha a hmem).1 (ha a hmem).2
          ⟨_, hmap⟩
        obtain ⟨s, hs⟩ := optionalText_total entry he "summary"
        obtain ⟨c, hc⟩ := optionalText_total entry he "content"
        obtain ⟨th, hth⟩ := mapThumbnail_total (field entry "media$thumbnail")
        have hl2 := not_nullish_of_object hl.2
        simp only [mapPost, getProp_of_not_nullish entry he, hlk, hau, getIndex,
          getProp_of_not_nullish _ hl2, getProp_of_not_nullish _ (not_nullish_of_object ht),
          getProp_of_not_nullish _ (not_nullish_of_object hu),
          getProp_of_not_nullish _ (not_nullish_of_object hp), mapAuthors, callMap, has, hs,
          hc, hth, bind, Except.bind, pure, Except.pure] at hm
        cases hm
      | _ => rw [hau] at ha; cases ha
    | _ => rw [hlk] at hl; cases hl

/-- The value of the conditional expression on a field that is missing or a text
wrapper. -/
theorem optionalText_spec (entry : JsVal) (he : isNullish entry = false) (key : String)
    (r : JsVal) (hr : optionalText entry key = .ok r)
    (hopt : isOptionalText (field entry key) = true) :
    (r = .null ↔ lacks entry key = true) ∧
    (lacks entry key = false → (field entry key).getProp "$t" = .ok r) := by
  rw [optionalText_value entry he key] at hr
  injection hr with hr
  unfold lacks
  cases hv : field entry key with
  | undefined => rw [hv] at hr; subst hr; simp [toBoolean, isNullish]
  | null => rw [hv] at hr; subst hr; simp [toBoolean, isNullish]
  | obj fields =>
    rw [hv] at hr hopt
    simp only [toBoolean, if_true] at hr
    subst hr
    simp only [isOptionalText, isNullish, isObject, Bool.false_or, Bool.true_and] at hopt
    refine ⟨?_, fun _ => getProp_of_not_nullish (obj fields) rfl _⟩
    cases ht : field (obj fields) "$t" <;> rw [ht] at hopt <;>
      first
      | (constructor <;> (intro h'; cases h'; done))
      | cases hopt
  | bool b => rw [hv] at hopt; simp [isOptionalText, isNullish, isObject] at hopt
  | num n => rw [hv] at hopt; simp [isOptionalText, isNullish, isObject] at hopt
  | str s => rw [hv] at hopt; simp [isOptionalText, isNullish, isObject] at hopt
  | arr xs => rw [hv] at hopt; simp [isOptionalText, isNullish, isObject] at hopt
  | fn f => rw [hv] at hopt; simp [isOptionalText, isNullish, isObject] at hopt

/-- C11: a well-formed entry is mapped to a post whose `summary` is `null` exactly when the
entry has no `summary`, and is otherwise the `$t` of the wrapper, the empty text included;
the same holds for `content`, independently of `summary`.  A field counts as being a
summary or content when it is missing or a wrapper object around a string. -/
theorem summary_and_content (entry : JsVal) (h : isWellFormedEntry entry = true) :
    ∃ post, mapPost entry = .ok post ∧
      (isOptionalText (field entry "summary") = true →
        (post.summary = .null ↔ lacks entry "summary" = true) ∧
        (lacks entry "summary" = false →
          (field entry "summary").getProp "$t" = .ok post.summary)) ∧
      (isOptionalText (field entry "content") = true →
        (post.content = .null ↔ lacks entry "content" = true) ∧
        (lacks entry "content" = false →
          (field entry "content").getProp "$t" = .ok post.content)) := by
  obtain ⟨post, hpost⟩ := mapPost_total entry h
  obtain ⟨he, _, hs, hc, _⟩ := mapPost_ok_parts entry post hpost
  exact ⟨post, hpost, optionalText_spec entry he "summary" _ hs,
    optionalText_spec entry he "content" _ hc⟩

/-- C11 (instance): the sample entry, without summary and with content, is mapped to a
post with summary `null` and the content text; an entry whose summary wraps the empty text
and which has no content is mapped to a post with the empty summary and content `null`. -/
theorem summary_and_content_witness :
    (∃ post, mapPost sampleEntry = .ok post ∧ post.summary = .null ∧
      post.content = .str "<p>Hi</p>") ∧
    (∃ post, mapPost sampleEntryEmptySummary = .ok post ∧ post.summary = .str "" ∧
      post.content = .null) := by
  constructor
  · obtain ⟨post, hpost, hs, hc⟩ := summary_and_content sampleEntry rfl
    exact ⟨post, hpost, (hs rfl).1.2 rfl, (Except.ok.inj ((hc rfl).2 rfl)).symm⟩
  · obtain ⟨post, hpost, hs, hc⟩ := summary_and_content sampleEntryEmptySummary rfl
    exact ⟨post, hpost, (Except.ok.inj ((hs rfl).2 rfl)).symm, (hc rfl).1.2 rfl⟩

/-- The thumbnail of an object, step by step. -/
theorem mapThumbnail_object (fields : List (String × JsVal)) :
    mapThumbnail (.obj fields)
      = .ok (some
          { url := if (field (.obj fields) "src").toBoolean = true
              then field (.obj fields) "src" else field (.obj fields) "url"
            width := field (.obj fields) "width"
            height := field (.obj fields) "height" }) := by
  have hn : isNullish (.obj fields) = false := rfl
  simp only [mapThumbnail, toBoolean, Bool.not_true, Bool.false_eq_true, if_false,
    getProp_of_not_nullish _ hn, bind, Except.bind, pure, Except.pure]
  split_ifs <;> rfl

/-- C12 (amended): `mapThumbnail` maps `null` and `undefined` to `null`, and an image object
to a thumbnail whose `url` is the `src` field when that is truthy (for a text: present and
not empty) and the `url` field otherwise, and whose `width` and `height` are the fields of
the object as they are. -/
theorem mapThumbnail_spec (fields : List (String × JsVal)) :
    mapThumbnail .null = .ok none ∧ mapThumbnail .undefined = .ok none ∧
    ∃ t, mapThumbnail (.obj fields) = .ok (some t) ∧
      t.width = field (.obj fields) "width" ∧ t.height = field (.obj fields) "height" ∧
      (∀ s, field (.obj fields) "src" = .str s → s ≠ "" → t.url = .str s) ∧
      ((field (.obj fields) "src").toBoolean = true → t.url = field (.obj fields) "src") ∧
      ((field (.obj fields) "src").toBoolean = false → t.url = field (.obj fields) "url") ∧
      (lacks (.obj fields) "src" = true → t.url = field (.obj fields) "url") ∧
      (field (.obj fields) "src" = .str "" → t.url = field (.obj fields) "url") := by
  refine ⟨rfl, rfl, _, mapThumbnail_object fields, rfl, rfl, ?_, ?_, ?_, ?_, ?_⟩
  · intro s hs hne
    simp only [hs, toBoolean, bne_iff_ne, ne_eq, hne, not_false_eq_true, if_true]
  · intro h
    simp only [h, if_true]
  · intro h
    simp only [h, Bool.false_eq_true, if_false]
  · intro h
    have hb : (field (.obj fields) "src").toBoolean = false := by
      unfold lacks at h
      cases hv : field (.obj fields) "src" <;> rw [hv] at h <;>
        first | rfl | (simp [isNullish] at h)
    simp only [hb, Bool.false_eq_true, if_false]
  · intro h
    simp only [h, toBoolean, bne_self_eq_false, Bool.false_eq_true, if_false]

/-- C12 (instance): an object with `src` "a" and no `url` gives the url "a", an object with
`url` "b" and no `src` gives the url "b", and width and height pass through. -/
theorem mapThumbnail_spec_witness :
    (∃ t, mapThumbnail (.obj [("src", .str "a"), ("width", .str "16")]) = .ok (some t) ∧
      t.url = .str "a" ∧ t.width = .str "16") ∧
    (∃ t, mapThumbnail (.obj [("url", .str "b")]) = .ok (some t) ∧ t.url = .str "b") ∧
    (∃ t, mapThumbnail sampleImageEmptySrc = .ok (some t) ∧ t.url = .str "b") := by
  refine ⟨?_, ?_, ?_⟩
  · obtain ⟨t, ht, hw, _, hsrc, _⟩ :=
      (mapThumbnail_spec [("src", .str "a"), ("width", .str "16")]).2.2
    exact ⟨t, ht, hsrc "a" rfl (by decide), hw⟩
  · obtain ⟨t, ht, _, _, _, _, _, hlack, _⟩ := (mapThumbnail_spec [("url", .str "b")]).2.2
    exact ⟨t, ht, hlack rfl⟩
  · obtain ⟨t, ht, _, _, _, _, hfalse, _, hempty⟩ :=
      (mapThumbnail_spec [("src", .str ""), ("url", .str "b"), ("width", .str "16"),
        ("height", .str "9")]).2.2
    exact ⟨t, ht, hempty rfl⟩

/-- C12 (counterexample): an image object whose `src` field is present with the empty text
as its value is mapped to a thumbnail whose `url` is the `url` field, not the `src`
field. -/
theorem mapThumbnail_counterexample :
    field sampleImageEmptySrc "src" = .str "" ∧
    mapThumbnail sampleImageEmptySrc
      = .ok (some { url := .str "b", width := .str "16", height := .str "9" }) ∧
    JsVal.str "b" ≠ field sampleImageEmptySrc "src" :=
  ⟨rfl, rfl, fun h => by
    have h2 : JsVal.str "b" = JsVal.str "" := h
    injection h2 with h3
    exact absurd h3 (by decide)⟩

theorem arrayMap_append {β : Type} (f : JsVal → Except JsError β) (xs ys : List JsVal)
    (ps qs : List β) (hx : arrayMap f xs = .ok ps) (hy : arrayMap f ys = .ok qs) :
    arrayMap f (xs ++ ys) = .ok (ps ++ qs) := by
  rw [arrayMap_ok_iff] at hx hy ⊢
  exact List.rel_append hx hy

/-- C13: on a list of well-formed entries `mapPosts` returns a list of the same length
whose element at each index is the post of the entry at that index; hence it maps the
empty list to the empty list and the concatenation of two lists to the concatenation of
their posts. -/
theorem mapPosts_pointwise (entries : List JsVal)
    (h : ∀ e ∈ entries, isWellFormedEntry e = true) :
    (∃ posts, mapPosts (.arr entries) = .ok posts ∧ posts.length = entries.length ∧
      ∀ (i : Nat) (hi : i < entries.length) (hp : i < posts.length),
        mapPost (entries.get ⟨i, hi⟩) = .ok (posts.get ⟨i, hp⟩)) ∧
    mapPosts (.arr []) = .ok [] ∧
    (∀ (more : List JsVal) (ps qs : List Post), mapPosts (.arr entries) = .ok ps →
      mapPosts (.arr more) = .ok qs → mapPosts (.arr (entries ++ more)) = .ok (ps ++ qs)) := by
  refine ⟨?_, rfl, fun more ps qs hp hq => arrayMap_append mapPost _ _ _ _ hp hq⟩
  obtain ⟨posts, hposts⟩ := arrayMap_total mapPost entries fun e he => mapPost_total e (h e he)
  have hrel := (arrayMap_ok_iff mapPost entries posts).1 hposts
  obtain ⟨hlen, hget⟩ := List.forall₂_iff_get.1 hrel
  exact ⟨posts, hposts, hlen.symm, fun i hi hp => hget i hi hp⟩

/-- C13 (instance): a page of the sample entry and an entry without authors is mapped to
the two posts in that order. -/
theorem mapPosts_pointwise_witness :
    ∃ posts, mapPosts (.arr [sampleEntry, sampleEntryEmptySummary]) = .ok posts ∧
      posts.length = 2 ∧
      ∀ (i : Nat) (hi : i < [sampleEntry, sampleEntryEmptySummary].length)
        (hp : i < posts.length),
        mapPost ([sampleEntry, sampleEntryEmptySummary].get ⟨i, hi⟩)
          = .ok (posts.get ⟨i, hp⟩) :=
  (mapPosts_pointwise [sampleEntry, sampleEntryEmptySummary] (by
    intro e he
    simp only [List.mem_cons, List.mem_singleton, List.not_mem_nil, or_false] at he
    rcases he with rfl | rfl <;> rfl)).1

/-- What a mapped author holds, read off the steps of `mapAuthor`. -/
theorem mapAuthor_ok_parts (author : JsVal) (r : Author) (h : mapAuthor author = .ok r) :
    (field author "name").getProp "$t" = .ok r.name ∧
    (field author "email").getProp "$t" = .ok r.email ∧
    mapThumbnail (field author "gd$image") = .ok r.thumbnail := by
  simp only [mapAuthor, bind_ok, pure, Except.pure] at h
  obtain ⟨n, hn, n', hn', e, he, e', he', g, hg, th, hth, hr⟩ := h
  cases hr
  refine ⟨?_, ?_, ?_⟩
  · rw [field_of_getProp hn]; exact hn'
  · rw [field_of_getProp he]; exact he'
  · rw [field_of_getProp hg]; exact hth

theorem mapThumbnail_absent (v : JsVal) (h : isNullish v = true) : mapThumbnail v = .ok none := by
  cases v <;> first | rfl | (simp [isNullish] at h)

/-- C14: the authors of a mapped post are the mapped authors of the entry: there are as
many as the author list has members, in the same order, each with the `$t` of `name` and of
`email` and with the thumbnail `mapThumbnail` makes of `gd$image`, `null` when that is
missing; an empty author list is mapped to no authors. -/
theorem authors_mapped (entry : JsVal) (post : Post) (h : mapPost entry = .ok post) :
    mapAuthors (.arr []) = .ok [] ∧
    ∃ authors, entry.getProp "author" = .ok (.arr authors) ∧
      mapAuthors (.arr authors) = .ok post.authors ∧
      post.authors.length = authors.length ∧
      ∀ (i : Nat) (hi : i < authors.length) (hp : i < post.authors.length),
        (field (authors.get ⟨i, hi⟩) "name").getProp "$t"
          = .ok (post.authors.get ⟨i, hp⟩).name ∧
        (field (authors.get ⟨i, hi⟩) "email").getProp "$t"
          = .ok (post.authors.get ⟨i, hp⟩).email ∧
        mapThumbnail (field (authors.get ⟨i, hi⟩) "gd$image")
          = .ok (post.authors.get ⟨i, hp⟩).thumbnail ∧
        (lacks (authors.get ⟨i, hi⟩) "gd$image" = true →
          (post.authors.get ⟨i, hp⟩).thumbnail = none) := by
  refine ⟨rfl, ?_⟩
  obtain ⟨he, hauth, _⟩ := mapPost_ok_parts entry post h
  obtain ⟨authors, harr, hmap⟩ := callMap_ok _ _ _ hauth
  have hrel := (arrayMap_ok_iff mapAuthor authors post.authors).1 hmap
  obtain ⟨hlen, hget⟩ := List.forall₂_iff_get.1 hrel
  refine ⟨authors, ?_, hmap, hlen.symm, fun i hi hp => ?_⟩
  · rw [getProp_of_not_nullish entry he, harr]
  · obtain ⟨h1, h2, h3⟩ := mapAuthor_ok_parts _ _ (hget i hi hp)
    refine ⟨h1, h2, h3, fun hl => ?_⟩
    rw [mapThumbnail_absent _ hl] at h3
    exact (Except.ok.inj h3).symm

/-- C14 (instance): the one author of the sample entry is mapped to the one author of its
post, and an entry with an empty author list to a post without authors. -/
theorem authors_mapped_witness :
    (∃ authors, sampleEntry.getProp "author" = .ok (.arr authors) ∧
      mapAuthors (.arr authors) = .ok samplePost.authors ∧
      samplePost.authors.length = authors.length) ∧
    (∃ post, mapPost sampleEntryEmptySummary = .ok post ∧ post.authors.length = 0) := by
  constructor
  · obtain ⟨authors, h1, h2, h3, _⟩ := (authors_mapped sampleEntry samplePost rfl).2
    exact ⟨authors, h1, h2, h3⟩
  · obtain ⟨post, hpost⟩ := mapPost_total sampleEntryEmptySummary rfl
    obtain ⟨authors, h1, _, h3, _⟩ := (authors_mapped sampleEntryEmptySummary post hpost).2
    have : authors = [] := by
      have h1' : Except.ok (JsVal.arr []) = Except.ok (JsVal.arr authors) := h1
      injection h1' with h1'
      injection h1' with h1'
      exact h1'.symm
    exact ⟨post, hpost, by rw [h3, this]; rfl⟩

end Kanako

namespace Kanako

/-! ## Construction, invariant and frame -/

/-- C15: a client constructed without a page size has cursor 1, page size 25, content mode
`default`, no search term and no timestamp bounds, and its first request URL is the base
URL followed by `feeds/posts/default?alt=json&start-index=1&max-results=25`; a client
constructed with a positive page size has that page size. -/
theorem constructor_default (blogUrl : String) :
    (Kanako.constructor blogUrl none).blogUrl = blogUrl ∧
    (Kanako.constructor blogUrl none).startIndex = 1 ∧
    (Kanako.constructor blogUrl none).maxResults = 25 ∧
    (Kanako.constructor blogUrl none).contentMode = "default" ∧
    (Kanako.constructor blogUrl none).searchQuery = none ∧
    (Kanako.constructor blogUrl none).updatedMin = none ∧
    (Kanako.constructor blogUrl none).updatedMax = none ∧
    (Kanako.constructor blogUrl none).publishedMin = none ∧
    (Kanako.constructor blogUrl none).publishedMax = none ∧
    buildRequestUrl (Kanako.constructor blogUrl none)
      = blogUrl ++ "feeds/posts/default?alt=json&start-index=1&max-results=25" ∧
    ∀ pageSize : Int, 0 < pageSize →
      (Kanako.constructor blogUrl (some pageSize)).maxResults = pageSize := by
  refine ⟨rfl, rfl, rfl, rfl, rfl, rfl, rfl, rfl, rfl, ?_, ?_⟩
  · rw [buildRequestUrl_segments]
    apply String.ext
    simp only [specRequestUrl, urlHead, String.data_append, List.append_assoc]
    rfl
  · intro pageSize hpos
    have hne : pageSize ≠ 0 := by omega
    simp [Kanako.constructor, numTruthy, hne]

/-- C15 (instance): the first request of a client for `https://x.com/`, and a client
constructed with page size 2. -/
theorem constructor_default_witness :
    buildRequestUrl (Kanako.constructor "https://x.com/" none)
      = "https://x.com/feeds/posts/default?alt=json&start-index=1&max-results=25" ∧
    (Kanako.constructor "https://x.com/" (some 2)).maxResults = 2 :=
  ⟨(constructor_default "https://x.com/").2.2.2.2.2.2.2.2.2.1,
   (constructor_default "https://x.com/").2.2.2.2.2.2.2.2.2.2 2 (by decide)⟩

/-- C16 (the code at the failing input): a client constructed with page size 0 is the
client constructed without a page size: its page size is 25, its request URL carries
`max-results=25`, and a successful call moves its cursor from 1 to 26. -/
theorem constructor_zero (blogUrl : String) :
    Kanako.constructor blogUrl (some 0) = Kanako.constructor blogUrl none ∧
    (Kanako.constructor "https://x.com/" (some 0)).maxResults = 25 ∧
    buildRequestUrl (Kanako.constructor "https://x.com/" (some 0))
      = "https://x.com/feeds/posts/default?alt=json&start-index=1&max-results=25" ∧
    (get sampleParse (Kanako.constructor "https://x.com/" (some 0))
      (.load 200 "OK" "page")).2.self.startIndex = 26 :=
  ⟨rfl, rfl, rfl, rfl⟩

theorem spacingFrom_le (fuel : Nat) : ∀ (m u : Nat), 0 < u → u ≤ m →
    0 < spacingFrom fuel m u ∧ spacingFrom fuel m u ≤ m := by
  induction fuel with
  | zero => intro m u h0 hle; exact ⟨h0, hle⟩
  | succ fuel ih =>
    intro m u h0 hle
    simp only [spacingFrom]
    split_ifs with hlt
    · exact ⟨h0, hle⟩
    · have hge : 9007199254740992 ≤ m / u := Nat.le_of_not_lt hlt
      have hmul : 9007199254740992 * u ≤ m := (Nat.le_div_iff_mul_le h0).1 hge
      exact ih m (2 * u) (by omega) (by nlinarith)

/-- Rounding does not take a positive integer below 1. -/
theorem one_le_roundToDouble (x : Int) (h : 1 ≤ x) : 1 ≤ roundToDouble x := by
  unfold roundToDouble
  split_ifs with hlt
  · exact h
  · have hm : 0 < x.natAbs := by omega
    obtain ⟨hu0, hule⟩ := spacingFrom_le x.natAbs x.natAbs 1 (by decide) hm
    have hq : 0 < x.natAbs / spacingFrom x.natAbs x.natAbs 1 := Nat.div_pos hule hu0
    have hsign : x.sign = 1 := Int.sign_eq_one_of_pos (by omega)
    simp only [hsign, one_mul]
    have hpos : 0 < (if 2 * (x.natAbs % spacingFrom x.natAbs x.natAbs 1)
          < spacingFrom x.natAbs x.natAbs 1 then
          x.natAbs / spacingFrom x.natAbs x.natAbs 1
        else if spacingFrom x.natAbs x.natAbs 1
            < 2 * (x.natAbs % spacingFrom x.natAbs x.natAbs 1) then
          x.natAbs / spacingFrom x.natAbs x.natAbs 1 + 1
        else if x.natAbs / spacingFrom x.natAbs x.natAbs 1 % 2 = 0 then
          x.natAbs / spacingFrom x.natAbs x.natAbs 1
        else x.natAbs / spacingFrom x.natAbs x.natAbs 1 + 1)
        * spacingFrom x.natAbs x.natAbs 1 := by
      apply Nat.mul_pos _ hu0
      split_ifs <;> omega
    exact_mod_cast hpos

theorem one_le_numberAdd (a b : Int) (ha : 1 ≤ a) (hb : 0 ≤ b) : 1 ≤ numberAdd a b :=
  one_le_roundToDouble _ (by omega)

theorem after_invariant (parse : String → Except JsError JsVal) (self : Kanako) (call : Call)
    (h : 1 ≤ self.startIndex ∧ 0 ≤ self.maxResults) :
    1 ≤ (Call.after parse self call).startIndex ∧
      0 ≤ (Call.after parse self call).maxResults := by
  have hup : 1 ≤ (updateStartIndex self).startIndex ∧ 0 ≤ (updateStartIndex self).maxResults := by
    simp only [updateStartIndex]
    exact ⟨one_le_numberAdd _ _ h.1 h.2, h.2⟩
  cases call with
  | get ev =>
    simp only [Call.after, get]
    rw [handle_self]
    split_ifs
    · exact hup
    · exact h
  | resetStartIndex => exact ⟨le_refl _, h.2⟩
  | updateStartIndex => exact hup
  | _ => exact h

theorem afterCalls_invariant (parse : String → Except JsError JsVal) (calls : List Call) :
    ∀ self : Kanako, 1 ≤ self.startIndex ∧ 0 ≤ self.maxResults →
      1 ≤ (afterCalls parse self calls).startIndex ∧
        0 ≤ (afterCalls parse self calls).maxResults := by
  induction calls with
  | nil => intro self h; exact h
  | cons c cs ih => intro self h; exact ih _ (after_invariant parse self c h)

/-- C17: from a client constructed without a page size or with one that is not negative,
every series of calls (of `get` with any outcome, `resetStartIndex`, `updateStartIndex`,
`buildRequestUrl`, the mapping methods) leads to a client whose cursor is at least 1 and
whose page size is at least 0; hence its request URL has the start-index segment right
after the head. -/
theorem cursor_invariant (parse : String → Except JsError JsVal) (blogUrl : String)
    (pageSize : Option Int) (hsize : ∀ n, pageSize = some n → 0 ≤ n) (calls : List Call) :
    1 ≤ (afterCalls parse (Kanako.constructor blogUrl pageSize) calls).startIndex ∧
    0 ≤ (afterCalls parse (Kanako.constructor blogUrl pageSize) calls).maxResults ∧
    buildRequestUrl (afterCalls parse (Kanako.constructor blogUrl pageSize) calls)
      = urlHead (afterCalls parse (Kanako.constructor blogUrl pageSize) calls)
        ++ ("&start-index=" ++ numberToString
              (afterCalls parse (Kanako.constructor blogUrl pageSize) calls).startIndex)
        ++ String.join
            (((parameters (afterCalls parse (Kanako.constructor blogUrl pageSize) calls)).drop 1).map
              fun p => segment p.1 p.2) := by
  have h0 : 1 ≤ (Kanako.constructor blogUrl pageSize).startIndex ∧
      0 ≤ (Kanako.constructor blogUrl pageSize).maxResults := by
    refine ⟨le_refl _, ?_⟩
    cases pageSize with
    | none => exact (by decide : (0 : Int) ≤ 25)
    | some n =>
      have := hsize n rfl
      simp only [Kanako.constructor]
      split_ifs <;> omega
  have hinv := afterCalls_invariant parse calls _ h0
  refine ⟨hinv.1, hinv.2, ?_⟩
  rw [buildRequestUrl_cursor]
  have hne : (afterCalls parse (Kanako.constructor blogUrl pageSize) calls).startIndex ≠ 0 := by
    omega
  simp only [presentNumber, if_neg hne, segment]
  rfl

/-- C17 (instance): after two successful calls, a failed one, a reset and one more
successful call a client with page size 2 is at cursor 3. -/
theorem cursor_invariant_witness :
    (afterCalls sampleParse (Kanako.constructor "https://x.com/" (some 2))
      [.get (.load 200 "OK" "page"), .buildRequestUrl, .get (.load 200 "OK" "page"),
       .get (.load 404 "Not Found" ""), .resetStartIndex, .updateStartIndex]).startIndex = 3 ∧
    1 ≤ (afterCalls sampleParse (Kanako.constructor "https://x.com/" (some 2))
      [.get (.load 200 "OK" "page"), .buildRequestUrl, .get (.load 200 "OK" "page"),
       .get (.load 404 "Not Found" ""), .resetStartIndex, .updateStartIndex]).startIndex :=
  ⟨rfl, (cursor_invariant sampleParse "https://x.com/" (some 2)
    (fun n hn => by cases hn; decide) _).1⟩

/-- C18: `resetStartIndex` and `updateStartIndex` leave the base URL, the page size, the
search term, the content mode and the four timestamp bounds as they are, and a call of
`buildRequestUrl` or of a mapping method leaves the whole client as it is. -/
theorem frame (parse : String → Except JsError JsVal) (self : Kanako) :
    ((resetStartIndex self).blogUrl = self.blogUrl ∧
     (resetStartIndex self).maxResults = self.maxResults ∧
     (resetStartIndex self).searchQuery = self.searchQuery ∧
     (resetStartIndex self).contentMode = self.contentMode ∧
     (resetStartIndex self).updatedMin = self.updatedMin ∧
     (resetStartIndex self).updatedMax = self.updatedMax ∧
     (resetStartIndex self).publishedMin = self.publishedMin ∧
     (resetStartIndex self).publishedMax = self.publishedMax) ∧
    ((updateStartIndex self).blogUrl = self.blogUrl ∧
     (updateStartIndex self).maxResults = self.maxResults ∧
     (updateStartIndex self).searchQuery = self.searchQuery ∧
     (updateStartIndex self).contentMode = self.contentMode ∧
     (updateStartIndex self).updatedMin = self.updatedMin ∧
     (updateStartIndex self).updatedMax = self.updatedMax ∧
     (updateStartIndex self).publishedMin = self.publishedMin ∧
     (updateStartIndex self).publishedMax = self.publishedMax) ∧
    resetStartIndex self = { self with startIndex := 1 } ∧
    updateStartIndex self
      = { self with startIndex := numberAdd self.startIndex self.maxResults } ∧
    Call.after parse self .buildRequestUrl = self ∧
    (∀ response, Call.after parse self (.map response) = self) ∧
    (∀ v, Call.after parse self (.mapPosts v) = self) ∧
    (∀ v, Call.after parse self (.mapPost v) = self) ∧
    (∀ v, Call.after parse self (.mapAuthors v) = self) ∧
    (∀ v, Call.after parse self (.mapAuthor v) = self) ∧
    (∀ v, Call.after parse self (.mapThumbnail v) = self) :=
  ⟨⟨rfl, rfl, rfl, rfl, rfl, rfl, rfl, rfl⟩, ⟨rfl, rfl, rfl, rfl, rfl, rfl, rfl, rfl⟩,
    rfl, rfl, rfl, fun _ => rfl, fun _ => rfl, fun _ => rfl, fun _ => rfl, fun _ => rfl,
    fun _ => rfl⟩

end Kanako

namespace Kanako

/-! ## The encoded search term -/

theorem isHexDigit_hexDigit (n : Nat) (h : n < 16) : isHexDigit (hexDigit n) = true := by
  interval_cases n <;> decide

theorem isEncodedText_escape (bs : List Nat) (h : ∀ b ∈ bs, b < 256) (rest : List Char)
    (hrest : isEncodedText rest = true) : isEncodedText (escapeOctets bs ++ rest) = true := by
  induction bs with
  | nil => exact hrest
  | cons b bs ih =>
    have hb := h b (List.mem_cons_self _ _)
    have ih' := ih fun x hx => h x (List.mem_cons_of_mem _ hx)
    simp only [isEncodedText] at ih' ⊢
    simp only [escapeOctets, percentEscape, List.cons_append, List.nil_append,
      List.append_assoc, isEncodedFrom, if_true, Bool.and_eq_true]
    exact ⟨isHexDigit_hexDigit _ (by omega), isHexDigit_hexDigit _ (by omega), ih'⟩

theorem isEncodedText_encodeChars (cs : List Char) : isEncodedText (encodeChars cs) = true := by
  induction cs with
  | nil => rfl
  | cons c cs ih =>
    simp only [encodeChars, encodeChar]
    split_ifs with hc
    · have hne : c ≠ '%' := by
        intro h
        rw [h] at hc
        exact absurd hc (by decide)
      simp only [isEncodedText] at ih ⊢
      show isEncodedFrom 0 (c :: encodeChars cs) = true
      simp only [isEncodedFrom, if_neg hne, hc, ih, Bool.and_self]
    · exact isEncodedText_escape _ (utf8Octets_lt _ (char_toNat_lt c)) _ ih

/-- The request URL as the head followed by the seven segments one after the other. -/
theorem buildRequestUrl_parts (self : Kanako) :
    buildRequestUrl self
      = urlHead self ++ segment "start-index" (presentNumber self.startIndex)
        ++ segment "max-results" (presentNumber self.maxResults)
        ++ segment "q" ((presentString self.searchQuery).map encodeURIComponent)
        ++ segment "updated-min" (presentString self.updatedMin)
        ++ segment "updated-max" (presentString self.updatedMax)
        ++ segment "published-min" (presentString self.publishedMin)
        ++ segment "published-max" (presentString self.publishedMax) := by
  rw [buildRequestUrl_segments]
  apply String.ext
  simp [specRequestUrl, parameters, String.data_join]

theorem includes_end (a part : String) : includes (a ++ part) part :=
  ⟨a.data, [], by simp [String.data_append]⟩

theorem includes_append_right {text part : String} (h : includes text part) (b : String) :
    includes (text ++ b) part := by
  obtain ⟨s, t, hst⟩ := h
  exact ⟨s, t ++ b.data, by simp [String.data_append, ← hst]⟩

theorem presentString_some (v : String) (h : v ≠ "") : presentString (some v) = some v := by
  simp [presentString, h]

/-- C19: the value that follows `&q=` in the request URL of a client with a non-empty
search term is `encodeURIComponent` of the term: a text of unreserved characters and
escapes `%XX` without any of `&`, `=`, `#`, `?`, `+`, `/` and the space, in a URL that is
the same before and after that value whatever the term is; a timestamp bound that is
present occurs in the URL as it is. -/
theorem search_term_encoded (self : Kanako) (q : String) (hq : self.searchQuery = some q)
    (hne : q ≠ "") :
    buildRequestUrl self
      = urlHead self ++ segment "start-index" (presentNumber self.startIndex)
        ++ segment "max-results" (presentNumber self.maxResults)
        ++ ("&q=" ++ encodeURIComponent q)
        ++ segment "updated-min" (presentString self.updatedMin)
        ++ segment "updated-max" (presentString self.updatedMax)
        ++ segment "published-min" (presentString self.publishedMin)
        ++ segment "published-max" (presentString self.publishedMax) ∧
    (∀ other : String, other ≠ "" →
      buildRequestUrl { self with searchQuery := some other }
        = urlHead self ++ segment "start-index" (presentNumber self.startIndex)
          ++ segment "max-results" (presentNumber self.maxResults)
          ++ ("&q=" ++ encodeURIComponent other)
          ++ segment "updated-min" (presentString self.updatedMin)
          ++ segment "updated-max" (presentString self.updatedMax)
          ++ segment "published-min" (presentString self.publishedMin)
          ++ segment "published-max" (presentString self.publishedMax)) ∧
    isEncodedText (encodeURIComponent q).data = true ∧
    (∀ c ∈ (encodeURIComponent q).data, isUnreserved c = true ∨ c = '%') ∧
    (∀ c ∈ ['&', '=', '#', '?', '+', '/', ' '], c ∉ (encodeURIComponent q).data) ∧
    (∀ v : String, v ≠ "" → self.updatedMin = some v →
      includes (buildRequestUrl self) ("&updated-min=" ++ v)) ∧
    (∀ v : String, v ≠ "" → self.updatedMax = some v →
      includes (buildRequestUrl self) ("&updated-max=" ++ v)) ∧
    (∀ v : String, v ≠ "" → self.publishedMin = some v →
      includes (buildRequestUrl self) ("&published-min=" ++ v)) ∧
    (∀ v : String, v ≠ "" → self.publishedMax = some v →
      includes (buildRequestUrl self) ("&published-max=" ++ v)) := by
  have hseg : ∀ t : String, t ≠ "" →
      segment "q" ((presentString (some t)).map encodeURIComponent)
        = "&q=" ++ encodeURIComponent t := by
    intro t ht
    rw [presentString_some t ht]
    rfl
  refine ⟨?_, ?_, isEncodedText_encodeChars q.data, encodeURIComponent_chars q, ?_,
    ?_, ?_, ?_, ?_⟩
  · rw [buildRequestUrl_parts, hq, hseg q hne]
  · intro other hother
    rw [buildRequestUrl_parts]
    simp only [hseg other hother]
    rfl
  · intro c hc hmem
    have hcases := encodeURIComponent_chars q c hmem
    simp only [List.mem_cons, List.mem_singleton, List.not_mem_nil, or_false] at hc
    rcases hc with rfl | rfl | rfl | rfl | rfl | rfl | rfl <;>
      rcases hcases with h | h <;> exact absurd h (by decide)
  · intro v hv hfield
    rw [buildRequestUrl_parts, hfield, presentString_some v hv]
    exact includes_append_right (includes_append_right (includes_append_right
      (includes_end _ _) _) _) _
  · intro v hv hfield
    rw [buildRequestUrl_parts, hfield, presentString_some v hv]
    exact includes_append_right (includes_append_right (includes_end _ _) _) _
  · intro v hv hfield
    rw [buildRequestUrl_parts, hfield, presentString_some v hv]
    exact includes_append_right (includes_end _ _) _
  · intro v hv hfield
    rw [buildRequestUrl_parts, hfield, presentString_some v hv]
    exact includes_end _ _

set_option maxRecDepth 8000 in
/-- C19 (instance): the search term `a&max-results=9 #?+/` is sent as
`a%26max-results%3D9%20%23%3F%2B%2F`, while an update bound `2020&max-results=5` is sent as
it is. -/
theorem search_term_encoded_witness :
    buildRequestUrl { injectingClient with searchQuery := some "a&max-results=9 #?+/" }
      = "https://x.com/feeds/posts/default?alt=json&start-index=1&q=a%26max-results%3D9%20%23%3F%2B%2F&updated-min=2020&max-results=5" ∧
    isEncodedText (encodeURIComponent "a&max-results=9 #?+/").data = true ∧
    includes (buildRequestUrl { injectingClient with searchQuery := some "a&max-results=9 #?+/" })
      "&updated-min=2020&max-results=5" :=
  ⟨rfl,
   (search_term_encoded { injectingClient with searchQuery := some "a&max-results=9 #?+/" }
      "a&max-results=9 #?+/" rfl (by decide)).2.2.1,
   (search_term_encoded { injectingClient with searchQuery := some "a&max-results=9 #?+/" }
      "a&max-results=9 #?+/" rfl (by decide)).2.2.2.2.2.1 "2020&max-results=5" (by decide)
      rfl⟩

end Kanako

namespace Kanako

/-! ## Overlapping calls -/

/-- The handler of an event on which the call succeeds advances the cursor. -/
theorem handle_success (parse : String → Except JsError JsVal) (self : Kanako) (ev : XhrEvent)
    (h : isFailure parse ev = false) : (handle parse self ev).self = updateStartIndex self := by
  cases ev with
  | error txt => cases h
  | load st txt body =>
    simp only [isFailure, Bool.or_eq_false_iff, Bool.not_eq_false', Bool.and_eq_true,
      decide_eq_true_eq] at h
    cases hm : map parse body with
    | ok posts =>
      simp only [handle]
      rw [onload_resolves parse self st txt body posts h.1 hm]
    | error e =>
      rw [hm] at h
      exact absurd h.2 (by simp)

/-- C20 (amended): a start of `get` builds the URL and leaves the client as it is; the
cursor moves when the handler of a successful request runs.  When two calls are started
before either request ends and both succeed, both requests are for the URL of the client as
it was, with the same start-index, and the cursor ends at the sum `(c + P) + P` of numbers;
when the second call is started after the first request has ended, it requests the
start-index `c + P`.  Provided `c + P` and `c + 2 * P` are safe integers, these sums are
exact: the cursor ends at `c + 2 * P` and the second serialized request is for
`c + P`. -/
theorem overlapping_calls (parse : String → Except JsError JsVal) (self : Kanako)
    (ev1 ev2 : XhrEvent) (h1 : isFailure parse ev1 = false)
    (h2 : isFailure parse ev2 = false) :
    (∀ s : Session, (step parse s .start).self = s.self) ∧
    (run parse ⟨self, []⟩ [.start, .start, .complete ev1, .complete ev2]).requested
      = [buildRequestUrl self, buildRequestUrl self] ∧
    (run parse ⟨self, []⟩ [.start, .start, .complete ev1, .complete ev2]).self.startIndex
      = numberAdd (numberAdd self.startIndex self.maxResults) self.maxResults ∧
    (run parse ⟨self, []⟩ [.start, .complete ev1, .start, .complete ev2]).requested
      = [buildRequestUrl self,
         buildRequestUrl
           { self with startIndex := numberAdd self.startIndex self.maxResults }] ∧
    (run parse ⟨self, []⟩ [.start, .complete ev1, .start, .complete ev2]).self.startIndex
      = numberAdd (numberAdd self.startIndex self.maxResults) self.maxResults ∧
    buildRequestUrl self
      = urlHead self ++ segment "start-index" (presentNumber self.startIndex)
        ++ String.join (((parameters self).drop 1).map fun p => segment p.1 p.2) ∧
    (isSafeInteger (self.startIndex + self.maxResults) = true →
      isSafeInteger (self.startIndex + 2 * self.maxResults) = true →
      (run parse ⟨self, []⟩ [.start, .start, .complete ev1, .complete ev2]).self.startIndex
        = self.startIndex + 2 * self.maxResults ∧
      (run parse ⟨self, []⟩ [.start, .complete ev1, .start, .complete ev2]).self.startIndex
        = self.startIndex + 2 * self.maxResults ∧
      (run parse ⟨self, []⟩ [.start, .complete ev1, .start, .complete ev2]).requested
        = [buildRequestUrl self,
           buildRequestUrl { self with startIndex := self.startIndex + self.maxResults }] ∧
      buildRequestUrl { self with startIndex := self.startIndex + self.maxResults }
        = urlHead self
          ++ segment "start-index" (presentNumber (self.startIndex + self.maxResults))
          ++ String.join (((parameters self).drop 1).map fun p => segment p.1 p.2)) := by
  have hu1 : ∀ s : Kanako, (handle parse s ev1).self = updateStartIndex s :=
    fun s => handle_success parse s ev1 h1
  have hu2 : ∀ s : Kanako, (handle parse s ev2).self = updateStartIndex s :=
    fun s => handle_success parse s ev2 h2
  have hover : (run parse ⟨self, []⟩
      [.start, .start, .complete ev1, .complete ev2]).self.startIndex
      = numberAdd (numberAdd self.startIndex self.maxResults) self.maxResults := by
    simp only [run, step, hu1, hu2, updateStartIndex]
  have hser : (run parse ⟨self, []⟩
      [.start, .complete ev1, .start, .complete ev2]).self.startIndex
      = numberAdd (numberAdd self.startIndex self.maxResults) self.maxResults := by
    simp only [run, step, hu1, hu2, updateStartIndex]
  have hreq : (run parse ⟨self, []⟩
      [.start, .complete ev1, .start, .complete ev2]).requested
      = [buildRequestUrl self,
         buildRequestUrl
           { self with startIndex := numberAdd self.startIndex self.maxResults }] := by
    simp only [run, step, hu1, List.nil_append, List.cons_append]
    rfl
  refine ⟨fun _ => rfl, ?_, hover, hreq, hser, buildRequestUrl_cursor self, ?_⟩
  · simp only [run, step, List.nil_append, List.cons_append]
  · intro hs1 hs2
    have e1 : numberAdd self.startIndex self.maxResults
        = self.startIndex + self.maxResults := numberAdd_exact _ _ hs1
    have e2 : numberAdd (self.startIndex + self.maxResults) self.maxResults
        = self.startIndex + 2 * self.maxResults := by
      rw [numberAdd_exact _ _ (by
        have : self.startIndex + self.maxResults + self.maxResults
            = self.startIndex + 2 * self.maxResults := by ring
        rw [this]; exact hs2)]
      ring
    refine ⟨by rw [hover, e1, e2], by rw [hser, e1, e2], by rw [hreq, e1], ?_⟩
    rw [buildRequestUrl_cursor]
    rfl

/-- C20 (instance): with cursor 1 and page size 2, two overlapping calls both request
start-index 1 and leave the cursor at 5; one after the other they request 1 and 3. -/
theorem overlapping_calls_witness :
    (run sampleParse ⟨Kanako.constructor "https://x.com/" (some 2), []⟩
        [.start, .start, .complete (.load 200 "OK" "page"),
         .complete (.load 200 "OK" "page")]).requested
      = ["https://x.com/feeds/posts/default?alt=json&start-index=1&max-results=2",
         "https://x.com/feeds/posts/default?alt=json&start-index=1&max-results=2"] ∧
    (run sampleParse ⟨Kanako.constructor "https://x.com/" (some 2), []⟩
        [.start, .start, .complete (.load 200 "OK" "page"),
         .complete (.load 200 "OK" "page")]).self.startIndex = 1 + 2 * 2 ∧
    (run sampleParse ⟨Kanako.constructor "https://x.com/" (some 2), []⟩
        [.start, .complete (.load 200 "OK" "page"), .start,
         .complete (.load 200 "OK" "page")]).requested
      = ["https://x.com/feeds/posts/default?alt=json&start-index=1&max-results=2",
         "https://x.com/feeds/posts/default?alt=json&start-index=3&max-results=2"] :=
  ⟨(overlapping_calls sampleParse (Kanako.constructor "https://x.com/" (some 2))
      (.load 200 "OK" "page") (.load 200 "OK" "page") rfl rfl).2.1,
   ((overlapping_calls sampleParse (Kanako.constructor "https://x.com/" (some 2))
      (.load 200 "OK" "page") (.load 200 "OK" "page") rfl rfl).2.2.2.2.2.2
      (by decide) (by decide)).1,
   ((overlapping_calls sampleParse (Kanako.constructor "https://x.com/" (some 2))
      (.load 200 "OK" "page") (.load 200 "OK" "page") rfl rfl).2.2.2.2.2.2
      (by decide) (by decide)).2.2.1⟩

/-- C20 (counterexample): with cursor 1 and page size `2^53 + 2` two overlapping successful
calls leave the cursor at `2^54 + 8`, not at `1 + 2 * (2^53 + 2) = 2^54 + 5`, and the
second of two serialized calls requests start-index `2^53 + 4`, not `2^53 + 3`. -/
theorem overlapping_calls_counterexample :
    hugerPageClient.startIndex = 1 ∧ hugerPageClient.maxResults = 9007199254740994 ∧
    (run sampleParse ⟨hugerPageClient, []⟩
        [.start, .start, .complete (.load 200 "OK" "page"),
         .complete (.load 200 "OK" "page")]).self.startIndex = 18014398509481992 ∧
    (run sampleParse ⟨hugerPageClient, []⟩
        [.start, .start, .complete (.load 200 "OK" "page"),
         .complete (.load 200 "OK" "page")]).self.startIndex
      ≠ hugerPageClient.startIndex + 2 * hugerPageClient.maxResults ∧
    (run sampleParse ⟨hugerPageClient, []⟩
        [.start, .complete (.load 200 "OK" "page"), .start,
         .complete (.load 200 "OK" "page")]).requested
      = ["https://x.com/feeds/posts/default?alt=json&start-index=1&max-results=9007199254740994",
         "https://x.com/feeds/posts/default?alt=json&start-index=9007199254740996&max-results=9007199254740994"] := by
  refine ⟨rfl, rfl, by decide, by decide, by decide⟩

end Kanako
